import Mathlib

/- Verification development for the fdaa-proxy governance gateway.

   The file shallowly embeds the parts of the code base that the checked
   properties are about: the hash-chained audit ledger (fdaa_proxy/dct/logger.py),
   the MCP policy engine (fdaa_proxy/mcp/policy.py), the MCP gateway approval
   workflow (fdaa_proxy/mcp/gateway.py), the MCP JSON-RPC client
   (fdaa_proxy/mcp/client.py), the OpenClaw wire proxy
   (fdaa_proxy/openclaw/proxy.py and protocol.py), the ACC token validator
   (fdaa_proxy/acc/validator.py and crypto.py) and agent persona hashing
   (fdaa_proxy/agents/models.py).

   Library primitives that the code calls (SHA-256, JSON parsing, base64,
   Ed25519) are taken as explicit function parameters of the embedded
   operations; wall-clock timestamps are modelled by monotone counters. -/

namespace FdaaProxy

/-! ## Audit ledger (dct/logger.py)

A `DCTEntry` mirrors the dataclass of the same name.  Timestamps are modelled
as naturals produced by a monotone clock (the code uses `datetime.now`, which
is strictly increasing between successive appends at microsecond resolution);
`arguments` and `result` are carried as the strings they serialise to. -/

structure DCTEntry where
  id : String
  timestamp : Nat
  event_type : String
  gateway_id : String
  tool : Option String := none
  arguments : Option String := none
  result : Option String := none
  error : Option String := none
  persona : Option String := none
  role : Option String := none
  reasoning : Option String := none
  acc_token_id : Option String := none
  prev_hash : Option String := none
  entry_hash : Option String := none
deriving DecidableEq, Repr

/-- JSON string literal (the serialised fields contain no characters that
`json.dumps` escapes). -/
def jsonStr (s : String) : String := "\"" ++ s ++ "\""

/-- JSON form of an optional string field: `null` or a quoted string. -/
def jsonOpt : Option String → String
  | none => "null"
  | some s => jsonStr s

/-- JSON form of a field that is already carried in serialised form
(`arguments` and `result`, which are dict/any in the code). -/
def jsonRawOpt : Option String → String
  | none => "null"
  | some s => s

/-- Embeds the serialisation inside `DCTEntry.compute_hash`:
`json.dumps(data, sort_keys=True, default=str)` over the twelve data fields
plus `prev_hash`, with keys in sorted order and the timestamp rendered in its
string form. -/
def DCTEntry.serializeData (e : DCTEntry) : String :=
  "\x7b\"acc_token_id\": " ++ jsonOpt e.acc_token_id ++
  ", \"arguments\": " ++ jsonRawOpt e.arguments ++
  ", \"error\": " ++ jsonOpt e.error ++
  ", \"event_type\": " ++ jsonStr e.event_type ++
  ", \"gateway_id\": " ++ jsonStr e.gateway_id ++
  ", \"id\": " ++ jsonStr e.id ++
  ", \"persona\": " ++ jsonOpt e.persona ++
  ", \"prev_hash\": " ++ jsonOpt e.prev_hash ++
  ", \"reasoning\": " ++ jsonOpt e.reasoning ++
  ", \"result\": " ++ jsonRawOpt e.result ++
  ", \"role\": " ++ jsonOpt e.role ++
  ", \"timestamp\": " ++ jsonStr (toString e.timestamp) ++
  ", \"tool\": " ++ jsonOpt e.tool ++ "\x7d"

/-- Embeds `DCTEntry.compute_hash` with the SHA-256 hex digest abstracted as
the parameter `H`. -/
def DCTEntry.compute_hash (H : String → String) (e : DCTEntry) : String :=
  H e.serializeData

/-- Embeds the `DCTChain` verification-result dataclass. -/
structure DCTChain where
  valid : Bool
  entries_checked : Nat
  first_invalid : Option String := none
  error : Option String := none
deriving DecidableEq, Repr

/-- Embeds the state of a `DCTLogger` with the `memory` storage backend:
the in-memory last-hash pointer, the entry counter and the stored entries. -/
structure DCTLogger where
  last_hash : Option String := none
  entry_count : Nat := 0
  entries : List DCTEntry := []
deriving DecidableEq, Repr

/-- Freshly initialised in-memory ledger. -/
def DCTLogger.init : DCTLogger := {}

/-- Keyword arguments of `DCTLogger.log`. -/
structure LogArgs where
  event_type : String
  gateway_id : String
  tool : Option String := none
  arguments : Option String := none
  result : Option String := none
  error : Option String := none
  persona : Option String := none
  role : Option String := none
  reasoning : Option String := none
  acc_token_id : Option String := none
deriving DecidableEq, Repr

/-- Entry constructed by `DCTLogger.log` before storing: counter incremented,
timestamp drawn from the clock (modelled by the incremented counter, which
preserves the strict monotonicity of `datetime.now` between appends),
`prev_hash` taken from the in-memory last hash, and `entry_hash` computed. -/
def DCTLogger.mkEntry (H : String → String) (st : DCTLogger) (a : LogArgs) : DCTEntry :=
  let count := st.entry_count + 1
  let ts := count
  let e0 : DCTEntry :=
    { id := "dct_" ++ toString count ++ "_" ++ toString ts
      timestamp := ts
      event_type := a.event_type
      gateway_id := a.gateway_id
      tool := a.tool
      arguments := a.arguments
      result := a.result
      error := a.error
      persona := a.persona
      role := a.role
      reasoning := a.reasoning
      acc_token_id := a.acc_token_id
      prev_hash := st.last_hash }
  { e0 with entry_hash := some (DCTEntry.compute_hash H e0) }

/-- Embeds `DCTLogger.log`: build the entry, advance the in-memory last hash,
store the entry, return it. -/
def DCTLogger.log (H : String → String) (st : DCTLogger) (a : LogArgs) :
    DCTLogger × DCTEntry :=
  let e := st.mkEntry H a
  ({ last_hash := e.entry_hash
     entry_count := st.entry_count + 1
     entries := st.entries ++ [e] }, e)

/-- Sequence of appends. -/
def DCTLogger.logMany (H : String → String) (st : DCTLogger) (as : List LogArgs) :
    DCTLogger :=
  as.foldl (fun s a => (DCTLogger.log H s a).1) st

/-- Embeds `DCTLogger.log` when `_store_entry` raises: the counter increment
and the `self._last_hash = entry.entry_hash` assignment have already executed
when the store is attempted, so only the entry list stays unchanged. -/
def DCTLogger.logStoreFails (H : String → String) (st : DCTLogger) (a : LogArgs) :
    DCTLogger :=
  let e := st.mkEntry H a
  { st with last_hash := e.entry_hash, entry_count := st.entry_count + 1 }

/-- Stable insertion step for descending timestamp order (an element is placed
before the first strictly older element, as `sorted(..., reverse=True)` does
for elements arriving later). -/
def insertDescByTs (e : DCTEntry) : List DCTEntry → List DCTEntry
  | [] => [e]
  | f :: r => if f.timestamp ≤ e.timestamp then e :: f :: r else f :: insertDescByTs e r

/-- Embeds the `sorted(entries, key=timestamp, reverse=True)` of
`_query_memory` as a stable insertion sort. -/
def sortDescByTs : List DCTEntry → List DCTEntry
  | [] => []
  | e :: r => insertDescByTs e (sortDescByTs r)

/-- Stable insertion step for ascending timestamp order. -/
def insertAscByTs (e : DCTEntry) : List DCTEntry → List DCTEntry
  | [] => [e]
  | f :: r => if e.timestamp ≤ f.timestamp then e :: f :: r else f :: insertAscByTs e r

/-- Embeds the `sorted(entries, key=timestamp)` of `verify_chain` as a stable
insertion sort. -/
def sortAscByTs : List DCTEntry → List DCTEntry
  | [] => []
  | e :: r => insertAscByTs e (sortAscByTs r)

/-- Embeds `DCTLogger.query` with no filters (as called by `verify_chain`):
most recent first, truncated to `limit` rows. -/
def DCTLogger.queryAll (st : DCTLogger) (limit : Nat) : List DCTEntry :=
  (sortDescByTs st.entries).take limit

/-- Embeds the verification loop of `DCTLogger.verify_chain`. -/
def chainWalk (H : String → String) :
    List DCTEntry → Option String → Nat → DCTChain
  | [], _, checked => { valid := true, entries_checked := checked }
  | e :: rest, prev, checked =>
    if e.prev_hash ≠ prev then
      { valid := false, entries_checked := checked + 1, first_invalid := some e.id,
        error := some ("prev_hash mismatch at " ++ e.id) }
    else if e.entry_hash ≠ some (DCTEntry.compute_hash H e) then
      { valid := false, entries_checked := checked + 1, first_invalid := some e.id,
        error := some ("entry_hash mismatch at " ++ e.id) }
    else chainWalk H rest e.entry_hash (checked + 1)

/-- Embeds `DCTLogger.verify_chain`: query with `limit or 10000` (so a `None`
or zero limit falls back to 10000 rows), re-sort ascending, then walk. -/
def DCTLogger.verify_chain (H : String → String) (st : DCTLogger)
    (limit : Option Nat) : DCTChain :=
  let lim := match limit with
    | none => 10000
    | some 0 => 10000
    | some l => l
  chainWalk H (sortAscByTs (st.queryAll lim)) none 0

/-- Boolean chain-integrity predicate: starting from `prev`, every entry's
`prev_hash` links to its predecessor and its `entry_hash` recomputes. -/
def chainOkB (H : String → String) : Option String → List DCTEntry → Bool
  | _, [] => true
  | prev, e :: rest =>
    e.prev_hash == prev && e.entry_hash == some (DCTEntry.compute_hash H e) &&
      chainOkB H e.entry_hash rest

/-- Hash pointer at the end of a chain segment. -/
def chainEnd : Option String → List DCTEntry → Option String
  | prev, [] => prev
  | _, e :: rest => chainEnd e.entry_hash rest

theorem chainEnd_append (p : Option String) (l : List DCTEntry) (e : DCTEntry) :
    chainEnd p (l ++ [e]) = e.entry_hash := by
  induction l generalizing p with
  | nil => rfl
  | cons f r ih => simpa [chainEnd] using ih f.entry_hash

theorem chainOkB_cons {H : String → String} {prev : Option String} {e : DCTEntry}
    {rest : List DCTEntry} (h : chainOkB H prev (e :: rest) = true) :
    e.prev_hash = prev ∧ e.entry_hash = some (DCTEntry.compute_hash H e) ∧
      chainOkB H e.entry_hash rest = true := by
  simp only [chainOkB, Bool.and_eq_true, beq_iff_eq] at h
  exact ⟨h.1.1, h.1.2, h.2⟩

theorem chainOkB_append_one {H : String → String} {p : Option String}
    {l : List DCTEntry} {e : DCTEntry}
    (hl : chainOkB H p l = true) (hprev : e.prev_hash = chainEnd p l)
    (hhash : e.entry_hash = some (DCTEntry.compute_hash H e)) :
    chainOkB H p (l ++ [e]) = true := by
  induction l generalizing p with
  | nil =>
    simp only [chainEnd] at hprev
    simp [chainOkB, hprev, hhash]
  | cons f r ih =>
    obtain ⟨h1, h2, h3⟩ := chainOkB_cons hl
    have h4 := ih h3 (by simpa [chainEnd] using hprev)
    rw [h2] at h4
    simp [chainOkB, h1, h2, h4]

theorem chainWalk_of_ok {H : String → String} {l : List DCTEntry}
    {prev : Option String} (c : Nat) (h : chainOkB H prev l = true) :
    chainWalk H l prev c = { valid := true, entries_checked := c + l.length } := by
  induction l generalizing prev c with
  | nil => simp [chainWalk]
  | cons e rest ih =>
    obtain ⟨h1, h2, h3⟩ := chainOkB_cons h
    have h4 := ih (c + 1) h3
    simp only [chainWalk]
    rw [if_neg (by simp [h1]), if_neg (by simp [h2]), h4]
    have harith : c + 1 + rest.length = c + (e :: rest).length := by
      simp [List.length_cons]; omega
    rw [harith]

theorem chainWalk_append {H : String → String} {l1 : List DCTEntry}
    {prev : Option String} (rest : List DCTEntry) (c : Nat)
    (h : chainOkB H prev l1 = true) :
    chainWalk H (l1 ++ rest) prev c =
      chainWalk H rest (chainEnd prev l1) (c + l1.length) := by
  induction l1 generalizing prev c with
  | nil => simp [chainEnd]
  | cons e r ih =>
    obtain ⟨h1, h2, h3⟩ := chainOkB_cons h
    have h4 := ih (c + 1) h3
    have harith : c + 1 + r.length = c + (e :: r).length := by
      simp [List.length_cons]; omega
    rw [harith] at h4
    simp only [List.cons_append, chainWalk]
    rw [if_neg (by simp [h1]), if_neg (by simp [h2])]
    simp only [List.append_eq]
    rw [h4]
    rfl

theorem chainOkB_split {H : String → String} {p : Option String}
    (l1 l2 : List DCTEntry) (h : chainOkB H p (l1 ++ l2) = true) :
    chainOkB H p l1 = true ∧ chainOkB H (chainEnd p l1) l2 = true := by
  induction l1 generalizing p with
  | nil => simpa [chainOkB, chainEnd] using h
  | cons e r ih =>
    obtain ⟨h1, h2, h3⟩ := chainOkB_cons (by simpa using h)
    obtain ⟨ha, hb⟩ := ih h3
    rw [h2] at ha
    exact ⟨by simp [chainOkB, h1, h2, ha], by simpa [chainEnd] using hb⟩

theorem chainWalk_head_bad_prev {H : String → String} {e : DCTEntry}
    {rest : List DCTEntry} {prev : Option String} (c : Nat)
    (h : e.prev_hash ≠ prev) :
    chainWalk H (e :: rest) prev c =
      { valid := false, entries_checked := c + 1, first_invalid := some e.id,
        error := some ("prev_hash mismatch at " ++ e.id) } := by
  simp only [chainWalk]
  rw [if_pos h]

theorem chainWalk_head_bad_hash {H : String → String} {e : DCTEntry}
    {rest : List DCTEntry} {prev : Option String} (c : Nat)
    (hp : e.prev_hash = prev)
    (h : e.entry_hash ≠ some (DCTEntry.compute_hash H e)) :
    chainWalk H (e :: rest) prev c =
      { valid := false, entries_checked := c + 1, first_invalid := some e.id,
        error := some ("entry_hash mismatch at " ++ e.id) } := by
  simp only [chainWalk]
  rw [if_neg (by simp [hp]), if_pos h]

theorem insertDescByTs_of_lt {e : DCTEntry} {l : List DCTEntry}
    (h : ∀ f ∈ l, e.timestamp < f.timestamp) :
    insertDescByTs e l = l ++ [e] := by
  induction l with
  | nil => rfl
  | cons f r ih =>
    have hf := h f (by simp)
    rw [insertDescByTs, if_neg (by omega), ih (fun g hg => h g (by simp [hg]))]
    rfl

theorem sortDescByTs_of_pairwise {l : List DCTEntry}
    (h : l.Pairwise (fun a b => a.timestamp < b.timestamp)) :
    sortDescByTs l = l.reverse := by
  induction l with
  | nil => rfl
  | cons e r ih =>
    rw [sortDescByTs, ih h.of_cons,
      insertDescByTs_of_lt (fun f hf => (List.pairwise_cons.mp h).1 f (List.mem_reverse.mp hf)),
      List.reverse_cons]

theorem insertAscByTs_of_gt {e : DCTEntry} {l : List DCTEntry}
    (h : ∀ f ∈ l, f.timestamp < e.timestamp) :
    insertAscByTs e l = l ++ [e] := by
  induction l with
  | nil => rfl
  | cons f r ih =>
    have hf := h f (by simp)
    rw [insertAscByTs, if_neg (by omega), ih (fun g hg => h g (by simp [hg]))]
    rfl

theorem sortAscByTs_of_pairwise_gt {l : List DCTEntry}
    (h : l.Pairwise (fun a b => b.timestamp < a.timestamp)) :
    sortAscByTs l = l.reverse := by
  induction l with
  | nil => rfl
  | cons e r ih =>
    rw [sortAscByTs, ih h.of_cons,
      insertAscByTs_of_gt (fun f hf => (List.pairwise_cons.mp h).1 f (List.mem_reverse.mp hf)),
      List.reverse_cons]

/-- Invariant maintained by the ledger across appends: the counter counts the
stored entries, timestamps are bounded by the counter and strictly increasing,
the stored entries form an intact hash chain from `null`, and the in-memory
last-hash pointer is the hash at the end of the chain. -/
structure LedgerInv (H : String → String) (st : DCTLogger) : Prop where
  count_eq : st.entry_count = st.entries.length
  ts_le : ∀ e ∈ st.entries, e.timestamp ≤ st.entry_count
  pw : st.entries.Pairwise (fun a b => a.timestamp < b.timestamp)
  chain : chainOkB H none st.entries = true
  last : st.last_hash = chainEnd none st.entries

theorem ledgerInv_init (H : String → String) : LedgerInv H DCTLogger.init := by
  constructor <;> simp [DCTLogger.init, chainOkB, chainEnd]

theorem mkEntry_entry_hash (H : String → String) (st : DCTLogger) (a : LogArgs) :
    (st.mkEntry H a).entry_hash = some (DCTEntry.compute_hash H (st.mkEntry H a)) := rfl

theorem ledgerInv_log {H : String → String} {st : DCTLogger} (a : LogArgs)
    (h : LedgerInv H st) : LedgerInv H (DCTLogger.log H st a).1 := by
  have hts : (st.mkEntry H a).timestamp = st.entry_count + 1 := rfl
  have hph : (st.mkEntry H a).prev_hash = st.last_hash := rfl
  refine ⟨?_, ?_, ?_, ?_, ?_⟩
  · simp [DCTLogger.log, h.count_eq]
  · intro e he
    have hcount : (DCTLogger.log H st a).1.entry_count = st.entry_count + 1 := rfl
    simp only [DCTLogger.log, List.mem_append, List.mem_singleton] at he
    rcases he with he | he
    · have := h.ts_le e he; omega
    · subst he; rw [hcount, hts]
  · show (st.entries ++ [st.mkEntry H a]).Pairwise _
    rw [List.pairwise_append]
    refine ⟨h.pw, by simp, ?_⟩
    intro x hx y hy
    simp only [List.mem_singleton] at hy
    subst hy
    have := h.ts_le x hx
    rw [hts]; omega
  · exact chainOkB_append_one h.chain (by rw [hph, h.last]) (mkEntry_entry_hash H st a)
  · show (st.mkEntry H a).entry_hash = chainEnd none (st.entries ++ [st.mkEntry H a])
    rw [chainEnd_append]

theorem ledgerInv_logMany {H : String → String} {st : DCTLogger}
    (as : List LogArgs) (h : LedgerInv H st) :
    LedgerInv H (DCTLogger.logMany H st as) := by
  induction as generalizing st with
  | nil => exact h
  | cons a r ih => exact ih (ledgerInv_log a h)

theorem logMany_entries_length (H : String → String) (st : DCTLogger)
    (as : List LogArgs) :
    (DCTLogger.logMany H st as).entries.length = st.entries.length + as.length := by
  induction as generalizing st with
  | nil => simp [DCTLogger.logMany]
  | cons a r ih =>
    have := ih (DCTLogger.log H st a).1
    simp only [DCTLogger.logMany, List.foldl_cons] at *
    rw [this]
    simp [DCTLogger.log]
    omega

theorem verify_chain_of_inv {H : String → String} {st : DCTLogger}
    (h : LedgerInv H st) (hlen : st.entries.length ≤ 10000) :
    DCTLogger.verify_chain H st none =
      { valid := true, entries_checked := st.entries.length } := by
  show chainWalk H (sortAscByTs ((sortDescByTs st.entries).take 10000)) none 0 = _
  rw [sortDescByTs_of_pairwise h.pw,
    List.take_of_length_le (by simpa using hlen),
    sortAscByTs_of_pairwise_gt (List.pairwise_reverse.mpr h.pw),
    List.reverse_reverse]
  simpa using chainWalk_of_ok 0 h.chain

/-- C1 (amended: the verifier reads at most 10000 rows, the default cap of
`verify_chain`): for every sequence of at most 10000 entries appended via
`log` to a freshly initialised ledger, `verify_chain` returns `valid = true`
with `entriesChecked = n`, and the stored entries form an intact chain: the
first entry has `prev_hash = null` and every later entry's `prev_hash` equals
the previous entry's `entry_hash` (the `chainOkB` conjunct). -/
theorem C1_ledger_verify (H : String → String) (as : List LogArgs)
    (h : as.length ≤ 10000) :
    DCTLogger.verify_chain H (DCTLogger.logMany H DCTLogger.init as) none =
      { valid := true, entries_checked := as.length } ∧
    chainOkB H none (DCTLogger.logMany H DCTLogger.init as).entries = true := by
  have hinv := ledgerInv_logMany as (ledgerInv_init H)
  have hlen : (DCTLogger.logMany H DCTLogger.init as).entries.length = as.length := by
    simpa [DCTLogger.init] using logMany_entries_length H DCTLogger.init as
  refine ⟨?_, hinv.chain⟩
  rw [verify_chain_of_inv hinv (by omega), hlen]

def C1wH : String → String := fun s => "#" ++ s

def C1wArgs : List LogArgs :=
  [ { event_type := "tool_call", gateway_id := "g", tool := some "a" },
    { event_type := "tool_call", gateway_id := "g", tool := some "b" } ]

set_option maxRecDepth 4000 in
/-- Witness for C1: two concrete appends with a concrete hash function. -/
theorem C1_ledger_verify_witness :
    C1wArgs.length ≤ 10000 ∧
    (DCTLogger.verify_chain C1wH (DCTLogger.logMany C1wH DCTLogger.init C1wArgs) none =
      { valid := true, entries_checked := C1wArgs.length } ∧
    chainOkB C1wH none (DCTLogger.logMany C1wH DCTLogger.init C1wArgs).entries = true) :=
  ⟨by decide, C1_ledger_verify C1wH C1wArgs (by decide)⟩

def C1xH : String → String := fun _ => ""

def C1xArgs : List LogArgs :=
  List.replicate 10001 { event_type := "tool_call", gateway_id := "g" }

/-- Counterexample to C1 as stated: after 10001 appends the default
`verify_chain` call reads only the most recent 10000 rows, so the walk starts
at the second entry, whose `prev_hash` is non-null, and verification reports
the chain invalid after checking one entry instead of returning
`valid = true` with `entriesChecked = 10001`. -/
theorem C1_counterexample :
    (DCTLogger.verify_chain C1xH (DCTLogger.logMany C1xH DCTLogger.init C1xArgs) none).valid
        = false ∧
    (DCTLogger.verify_chain C1xH
        (DCTLogger.logMany C1xH DCTLogger.init C1xArgs) none).entries_checked = 1 ∧
    C1xArgs.length = 10001 := by
  set st := DCTLogger.logMany C1xH DCTLogger.init C1xArgs with hst
  have hinv : LedgerInv C1xH st :=
    ledgerInv_logMany C1xArgs (ledgerInv_init C1xH)
  have hlen : st.entries.length = 10001 := by
    rw [hst, logMany_entries_length C1xH DCTLogger.init C1xArgs,
      show DCTLogger.init.entries.length = 0 from rfl,
      show C1xArgs.length = 10001 from by
        show (List.replicate 10001 _).length = 10001
        rw [List.length_replicate]]
  obtain ⟨e1, rest1, hE1⟩ :=
    List.exists_cons_of_ne_nil (l := st.entries)
      (by intro hnil; rw [hnil] at hlen; simp at hlen)
  obtain ⟨e2, r, hE2⟩ :=
    List.exists_cons_of_ne_nil (l := rest1)
      (by intro hnil; rw [hE1, hnil] at hlen; simp at hlen)
  have hE : st.entries = e1 :: e2 :: r := by rw [hE1, hE2]
  have hdrop : st.entries.drop 1 = e2 :: r := by rw [hE]; rfl
  have hchain := hinv.chain
  rw [hE] at hchain
  obtain ⟨hp1, hh1, hrest⟩ := chainOkB_cons hchain
  obtain ⟨hp2, hh2, hr2⟩ := chainOkB_cons hrest
  have hne : e2.prev_hash ≠ none := by rw [hp2, hh1]; simp
  have hpw2 : (st.entries.drop 1).Pairwise (fun a b => a.timestamp < b.timestamp) :=
    hinv.pw.drop
  have hverify : DCTLogger.verify_chain C1xH st none = chainWalk C1xH (e2 :: r) none 0 := by
    show chainWalk C1xH (sortAscByTs ((sortDescByTs st.entries).take 10000)) none 0 = _
    rw [sortDescByTs_of_pairwise hinv.pw, List.take_reverse, hlen,
      show (10001 - 10000 : Nat) = 1 from rfl, hdrop,
      sortAscByTs_of_pairwise_gt (List.pairwise_reverse.mpr (hdrop ▸ hpw2)),
      List.reverse_reverse]
  rw [hverify, chainWalk_head_bad_prev 0 hne]
  refine ⟨rfl, rfl, ?_⟩
  show (List.replicate 10001 _).length = 10001
  rw [List.length_replicate]

/-- C2 (amended: the mutation must not change the entry's position in
timestamp order, e.g. any mutation outside the timestamp field; and the hash
function must not collide on the mutated entry): for every chain of at most
10000 appended entries and every replacement of the stored entry at position
`k` by an entry with the same timestamp whose `prev_hash` no longer links or
whose stored `entry_hash` no longer recomputes, `verify_chain` returns
`valid = false` with `firstInvalid` equal to the id of the mutated entry,
after checking `k+1` entries. -/
theorem C2_tamper_detected (H : String → String) (as : List LogArgs) (k : Nat)
    (e' orig : DCTEntry) (hn : as.length ≤ 10000)
    (horig : (DCTLogger.logMany H DCTLogger.init as).entries[k]? = some orig)
    (hts : e'.timestamp = orig.timestamp)
    (hbad : e'.prev_hash ≠ orig.prev_hash ∨
      e'.entry_hash ≠ some (DCTEntry.compute_hash H e')) :
    (DCTLogger.verify_chain H
      { DCTLogger.logMany H DCTLogger.init as with
        entries := (DCTLogger.logMany H DCTLogger.init as).entries.set k e' }
      none).valid = false ∧
    (DCTLogger.verify_chain H
      { DCTLogger.logMany H DCTLogger.init as with
        entries := (DCTLogger.logMany H DCTLogger.init as).entries.set k e' }
      none).entries_checked = k + 1 ∧
    (DCTLogger.verify_chain H
      { DCTLogger.logMany H DCTLogger.init as with
        entries := (DCTLogger.logMany H DCTLogger.init as).entries.set k e' }
      none).first_invalid = some e'.id := by
  set st := DCTLogger.logMany H DCTLogger.init as with hst
  set l := st.entries with hl
  have hinv : LedgerInv H st :=
    ledgerInv_logMany as (ledgerInv_init H)
  have hk : k < l.length := by
    by_contra hc
    push_neg at hc
    rw [List.getElem?_eq_none hc] at horig
    cases horig
  have hget : l[k] = orig := by
    rw [List.getElem?_eq_getElem hk] at horig
    exact Option.some.inj horig
  have hlen : as.length = l.length := by
    rw [hl, hst]
    simpa [DCTLogger.init] using (logMany_entries_length H DCTLogger.init as).symm
  -- the timestamp keys of the mutated list coincide with the original ones
  have hmapts : (l.set k e').map (fun e => e.timestamp) = l.map (fun e => e.timestamp) := by
    rw [List.map_set]
    apply List.ext_getElem
    · simp
    · intro i hi hi2
      rcases eq_or_ne k i with he | hne
      · subst he
        rw [List.getElem_set_self (by simpa using hk), List.getElem_map, hget]
        exact hts
      · rw [List.getElem_set_ne hne]
  have hpw' : (l.set k e').Pairwise (fun a b => a.timestamp < b.timestamp) := by
    have h1 : (l.map (fun e => e.timestamp)).Pairwise (fun a b : Nat => a < b) :=
      List.pairwise_map.mpr hinv.pw
    rw [← hmapts] at h1
    exact List.pairwise_map.mp h1
  have hlen' : (l.set k e').length ≤ 10000 := by
    rw [List.length_set]; omega
  have hverify : DCTLogger.verify_chain H { st with entries := l.set k e' } none =
      chainWalk H (l.set k e') none 0 := by
    show chainWalk H (sortAscByTs ((sortDescByTs (l.set k e')).take 10000)) none 0 = _
    rw [sortDescByTs_of_pairwise hpw',
      List.take_of_length_le (by simpa using hlen'),
      sortAscByTs_of_pairwise_gt (List.pairwise_reverse.mpr hpw'),
      List.reverse_reverse]
  have hsplitl : l = l.take k ++ orig :: l.drop (k + 1) := by
    conv =>
      lhs
      rw [← List.take_append_drop k l, List.drop_eq_getElem_cons hk, hget]
  have hchain := hinv.chain
  rw [← hl, hsplitl] at hchain
  obtain ⟨htake, hrest⟩ := chainOkB_split (l.take k) (orig :: l.drop (k + 1)) hchain
  obtain ⟨hpo, hho, hro⟩ := chainOkB_cons hrest
  have hsetsplit : l.set k e' = l.take k ++ e' :: l.drop (k + 1) :=
    List.set_eq_take_cons_drop e' hk
  have htklen : (l.take k).length = k := by
    rw [List.length_take]; omega
  have hwalk : chainWalk H (l.set k e') none 0 =
      chainWalk H (e' :: l.drop (k + 1)) (chainEnd none (l.take k)) k := by
    rw [hsetsplit, chainWalk_append _ 0 htake, htklen]
    simp
  have hend : chainEnd none (l.take k) = orig.prev_hash := hpo.symm
  rw [hverify, hwalk, hend]
  rcases Decidable.em (e'.prev_hash = orig.prev_hash) with hp | hp
  · have hh : e'.entry_hash ≠ some (DCTEntry.compute_hash H e') := by
      rcases hbad with hb | hb
      · exact absurd hp hb
      · exact hb
    rw [chainWalk_head_bad_hash k hp hh]
    exact ⟨rfl, rfl, rfl⟩
  · rw [chainWalk_head_bad_prev k hp]
    exact ⟨rfl, rfl, rfl⟩

def C2wH : String → String := fun s => "#" ++ s

def C2wArgs : List LogArgs :=
  [ { event_type := "tool_call", gateway_id := "g", tool := some "a" },
    { event_type := "tool_call", gateway_id := "g", tool := some "b" },
    { event_type := "tool_call", gateway_id := "g", tool := some "c" } ]

def C2wSt : DCTLogger := DCTLogger.logMany C2wH DCTLogger.init C2wArgs

def C2wOrig : DCTEntry :=
  C2wSt.entries.getD 1 (DCTLogger.init.mkEntry C2wH { event_type := "", gateway_id := "" })

def C2wMut : DCTEntry := { C2wOrig with tool := some "b2" }

set_option maxRecDepth 4000 in
/-- Witness for C2: the spec's concrete scenario, with entry 2's `tool`
overwritten to `b2`. -/
theorem C2_tamper_detected_witness :
    (C2wArgs.length ≤ 10000 ∧
     C2wSt.entries[1]? = some C2wOrig ∧
     C2wMut.timestamp = C2wOrig.timestamp ∧
     C2wMut.entry_hash ≠ some (DCTEntry.compute_hash C2wH C2wMut)) ∧
    ((DCTLogger.verify_chain C2wH
        { C2wSt with entries := C2wSt.entries.set 1 C2wMut } none).valid = false ∧
     (DCTLogger.verify_chain C2wH
        { C2wSt with entries := C2wSt.entries.set 1 C2wMut } none).entries_checked = 2 ∧
     (DCTLogger.verify_chain C2wH
        { C2wSt with entries := C2wSt.entries.set 1 C2wMut } none).first_invalid
        = some C2wMut.id) :=
  ⟨⟨by decide, by decide, by decide, by decide⟩,
    C2_tamper_detected C2wH C2wArgs 1 C2wMut C2wOrig (by decide) (by decide) (by decide)
      (Or.inr (by decide))⟩

/-- Number of positions at which two equal-length strings differ. -/
def countCharDiffs (a b : String) : Nat :=
  (List.zipWith (fun x y => if x = y then (0 : Nat) else 1) a.data b.data).sum

def C2xMut : DCTEntry := { C2wOrig with timestamp := 9 }

set_option maxRecDepth 4000 in
/-- Counterexample to C2 as stated: mutating a single byte of entry 2's
serialized payload — the timestamp digit `2` overwritten by `9` — moves the
entry after entry 3 in the verifier's timestamp ordering, so `verify_chain`
still reports `valid = false` but `firstInvalid` names entry 3
(`dct_3_3`), not the mutated entry 2 (`dct_2_2`). -/
theorem C2_counterexample :
    (DCTLogger.verify_chain C2wH
      { C2wSt with entries := C2wSt.entries.set 1 C2xMut } none).valid = false ∧
    (DCTLogger.verify_chain C2wH
      { C2wSt with entries := C2wSt.entries.set 1 C2xMut } none).first_invalid
      = some "dct_3_3" ∧
    C2xMut.id = "dct_2_2" ∧
    ("dct_3_3" : String) ≠ "dct_2_2" ∧
    C2xMut.serializeData.length = C2wOrig.serializeData.length ∧
    countCharDiffs C2xMut.serializeData C2wOrig.serializeData = 1 := by
  refine ⟨by decide, by decide, by decide, by decide, by decide, by decide⟩

def C4H : String → String := fun s => "#" ++ s

def C4St1 : DCTLogger :=
  (DCTLogger.log C4H DCTLogger.init { event_type := "tool_call", gateway_id := "g" }).1

def C4Args : LogArgs := { event_type := "tool_call", gateway_id := "g", tool := some "t" }

set_option maxRecDepth 4000 in
/-- C4 evaluation at the failing input: on a ledger holding one persisted
entry, an append whose store step raises leaves the entry list unchanged but
the in-memory last-hash pointer has already advanced to the hash of the
unpersisted entry, contradicting the claim that it stays at the hash of the
last successfully persisted entry. -/
theorem C4_lastHash_advances_on_store_failure :
    (DCTLogger.logStoreFails C4H C4St1 C4Args).entries = C4St1.entries ∧
    (DCTLogger.logStoreFails C4H C4St1 C4Args).last_hash =
      some (DCTEntry.compute_hash C4H (C4St1.mkEntry C4H C4Args)) ∧
    (DCTLogger.logStoreFails C4H C4St1 C4Args).last_hash ≠ C4St1.last_hash := by
  refine ⟨rfl, rfl, by decide⟩

/-! ## MCP policy engine (mcp/policy.py) -/

/-- Single-quote character, used in the policy engine's denial messages. -/
def sq : String := String.mk [Char.ofNat 39]

inductive ToolCategory
  | READ
  | WRITE
  | DELETE
  | ADMIN
deriving DecidableEq, Repr

/-- Embeds the `ToolPolicy` dataclass. -/
structure ToolPolicy where
  tool_name : String
  allowed : Bool := true
  category : ToolCategory := ToolCategory.READ
  allowed_personas : List String := ["*"]
  allowed_roles : List String := ["*"]
  requires_approval : Bool := false
  approvers : List String := []
  rate_limit : Option (List (String × Nat)) := none
  description_override : Option String := none
deriving DecidableEq, Repr

/-- Embeds the `MCPPolicy` dataclass; the `tool_policies` dict is an
association list. -/
structure MCPPolicy where
  server_name : String
  mode : String := "allowlist"
  tool_policies : List (String × ToolPolicy) := []
  default_allowed : Bool := false
  default_category : ToolCategory := ToolCategory.WRITE
  default_requires_approval : Bool := true
  enabled : Bool := true
  description : String := ""
  write_requires_approval : Bool := true
  delete_requires_approval : Bool := true
  admin_requires_approval : Bool := true
deriving DecidableEq, Repr

/-- Dictionary lookup (`dict.get`). -/
def alookup {κ α : Type} [DecidableEq κ] : List (κ × α) → κ → Option α
  | [], _ => none
  | (k, v) :: r, key => if k = key then some v else alookup r key

/-- Python truthiness of an optional string argument (`None` and the empty
string are falsy). -/
def pyTruthy : Option String → Bool
  | none => false
  | some s => !s.isEmpty

/-- Embeds `MCPPolicy.is_tool_allowed`.  The `persona`/`role` gates replicate
the nested `if persona and tool_policy.allowed_personas != ["*"]` tests of the
code. -/
def MCPPolicy.is_tool_allowed (p : MCPPolicy) (tool_name : String)
    (persona : Option String) (role : Option String) : Bool × String :=
  match alookup p.tool_policies tool_name with
  | none =>
    if p.mode = "allowlist" then (p.default_allowed, "Not in allowlist")
    else (true, "Not in blocklist")
  | some tp =>
    if !tp.allowed then (false, "Tool is blocked by policy")
    else if pyTruthy persona && !(tp.allowed_personas == ["*"]) &&
        !(tp.allowed_personas.contains (persona.getD "")) then
      (false, "Persona " ++ sq ++ persona.getD "" ++ sq ++ " not authorized")
    else if pyTruthy role && !(tp.allowed_roles == ["*"]) &&
        !(tp.allowed_roles.contains (role.getD "")) then
      (false, "Role " ++ sq ++ role.getD "" ++ sq ++ " not authorized")
    else (true, "Allowed")

/-- Embeds `MCPPolicy.requires_approval`. -/
def MCPPolicy.requires_approval (p : MCPPolicy) (tool_name : String) :
    Bool × List String :=
  match alookup p.tool_policies tool_name with
  | none => (p.default_requires_approval, [])
  | some tp =>
    if tp.requires_approval then (true, tp.approvers)
    else if tp.category == ToolCategory.WRITE && p.write_requires_approval then (true, [])
    else if tp.category == ToolCategory.DELETE && p.delete_requires_approval then (true, [])
    else if tp.category == ToolCategory.ADMIN && p.admin_requires_approval then (true, [])
    else (false, [])

/-- Category-wide approval default for a category, as the spec describes it
(read operations have no category-wide default flag). -/
def MCPPolicy.categoryDefault (p : MCPPolicy) : ToolCategory → Bool
  | ToolCategory.READ => false
  | ToolCategory.WRITE => p.write_requires_approval
  | ToolCategory.DELETE => p.delete_requires_approval
  | ToolCategory.ADMIN => p.admin_requires_approval

/-- C5 (amended: in the category-default case the decision carries an empty
approvers list, not the ToolPolicy's approvers): for every tool with an
explicit ToolPolicy, `requires_approval` returns `(true, toolPolicy.approvers)`
when the `requiresApproval` flag is set, `(true, [])` when only the
category-wide default applies, and `(false, [])` otherwise. -/
theorem C5_requires_approval_characterisation (p : MCPPolicy) (tool : String)
    (tp : ToolPolicy) (hlook : alookup p.tool_policies tool = some tp) :
    p.requires_approval tool =
      (if tp.requires_approval then (true, tp.approvers)
       else if p.categoryDefault tp.category then (true, ([] : List String))
       else (false, [])) := by
  obtain ⟨tn, alw, cat, aps, ars, ra, apr, rl, dov⟩ := tp
  obtain ⟨sn, mo, pols, da, dc, dra, en, de, wra, dla, ada⟩ := p
  unfold MCPPolicy.requires_approval
  rw [hlook]
  cases ra <;> cases cat <;> cases wra <;> cases dla <;> cases ada <;>
    simp [MCPPolicy.categoryDefault]

def C5wTp : ToolPolicy :=
  { tool_name := "delete_branch", category := ToolCategory.DELETE,
    requires_approval := true, approvers := ["bob"] }

def C5wPolicy : MCPPolicy :=
  { server_name := "test", tool_policies := [("delete_branch", C5wTp)] }

/-- Witness for C5 at a concrete policy whose tool has the explicit
`requiresApproval` flag set. -/
theorem C5_requires_approval_witness :
    alookup C5wPolicy.tool_policies "delete_branch" = some C5wTp ∧
    C5wPolicy.requires_approval "delete_branch" =
      (if C5wTp.requires_approval then (true, C5wTp.approvers)
       else if C5wPolicy.categoryDefault C5wTp.category then (true, ([] : List String))
       else (false, [])) :=
  ⟨by decide,
    C5_requires_approval_characterisation C5wPolicy "delete_branch" C5wTp (by decide)⟩

def C5xTp : ToolPolicy :=
  { tool_name := "create_issue", category := ToolCategory.WRITE,
    requires_approval := false, approvers := ["alice"] }

def C5xPolicy : MCPPolicy :=
  { server_name := "test", tool_policies := [("create_issue", C5xTp)],
    write_requires_approval := true }

/-- Counterexample to C5 as stated: a write-category tool whose own
`requiresApproval` flag is false but whose category default requires approval
gets decision `(true, [])`, not `(true, toolPolicy.approvers)`. -/
theorem C5_counterexample :
    C5xPolicy.requires_approval "create_issue" = (true, []) ∧
    C5xTp.approvers = ["alice"] ∧
    C5xPolicy.requires_approval "create_issue" ≠ (true, C5xTp.approvers) := by
  refine ⟨by decide, by decide, by decide⟩

/-- C10: a policy check invoked with `persona = None` or `role = None` (the
defaults of the gateway's `call_tool`) skips the corresponding gate entirely
and is never denied on persona or role grounds, while any named non-listed
caller is denied by the same gate. -/
theorem C10_unidentified_caller_skips_gates (p : MCPPolicy) (tool : String)
    (tp : ToolPolicy) (hlook : alookup p.tool_policies tool = some tp)
    (hallowed : tp.allowed = true) (q rr : String) (hq : q ≠ "") (hr : rr ≠ "")
    (hqf : tp.allowed_personas ≠ ["*"]) (hqm : q ∉ tp.allowed_personas)
    (hrf : tp.allowed_roles ≠ ["*"]) (hrm : rr ∉ tp.allowed_roles) :
    p.is_tool_allowed tool none none = (true, "Allowed") ∧
    p.is_tool_allowed tool none (some rr) =
      (false, "Role " ++ sq ++ rr ++ sq ++ " not authorized") ∧
    p.is_tool_allowed tool (some q) none =
      (false, "Persona " ++ sq ++ q ++ sq ++ " not authorized") := by
  unfold MCPPolicy.is_tool_allowed
  rw [hlook]
  have hqe : (some q).getD "" = q := rfl
  have hre : (some rr).getD "" = rr := rfl
  have hqie : q.isEmpty = false := by
    cases hie : q.isEmpty
    · rfl
    · exact absurd ((String.isEmpty_iff q).mp hie) hq
  have hrie : rr.isEmpty = false := by
    cases hie : rr.isEmpty
    · rfl
    · exact absurd ((String.isEmpty_iff rr).mp hie) hr
  have hqt : pyTruthy (some q) = true := by simp [pyTruthy, hqie]
  have hrt : pyTruthy (some rr) = true := by simp [pyTruthy, hrie]
  refine ⟨by simp [pyTruthy, hallowed], ?_, ?_⟩
  · simp [hallowed, pyTruthy, hrie, hre, hqf, hrf, hqm, hrm]
  · simp [hallowed, pyTruthy, hqie, hqe, hqf, hrf, hqm, hrm]

def C10Tp : ToolPolicy :=
  { tool_name := "admin_tool", category := ToolCategory.ADMIN,
    allowed_personas := ["admin", "root"], allowed_roles := ["ops"] }

def C10Policy : MCPPolicy :=
  { server_name := "test", tool_policies := [("admin_tool", C10Tp)] }

/-- Witness for C10 at a concrete restricted tool: the anonymous caller
passes, the named outsiders are denied. -/
theorem C10_unidentified_caller_witness :
    C10Policy.is_tool_allowed "admin_tool" none none = (true, "Allowed") ∧
    C10Policy.is_tool_allowed "admin_tool" none (some "dev") =
      (false, "Role " ++ sq ++ "dev" ++ sq ++ " not authorized") ∧
    C10Policy.is_tool_allowed "admin_tool" (some "mallory") none =
      (false, "Persona " ++ sq ++ "mallory" ++ sq ++ " not authorized") :=
  C10_unidentified_caller_skips_gates C10Policy "admin_tool" C10Tp (by decide)
    (by decide) "mallory" "dev" (by decide) (by decide) (by decide) (by decide)
    (by decide) (by decide)

/-! ## MCP gateway (mcp/gateway.py)

The gateway state carries the policy, the in-memory audit log, the pending
approval dict (an association list, as Python dicts have unique keys), the
request counter, a monotone clock standing for `datetime.now`, and a trace of
the `tools/call` requests issued to the upstream `MCPClient`
(`upstream_calls`).  The upstream server's behaviour is the parameter
`exec`; tool-call arguments are carried as the string they serialise to, and
the `content` payload of an `MCPResult` as its text. -/

inductive ApprovalStatus
  | PENDING
  | APPROVED
  | DENIED
  | EXPIRED
deriving DecidableEq, Repr, Inhabited

/-- Embeds the `MCPResult` dataclass of mcp/client.py. -/
structure MCPResult where
  success : Bool
  content : Option String := none
  error : Option String := none
  is_error : Bool := false
deriving DecidableEq, Repr, Inhabited

/-- Embeds the `AuditEntry` dataclass. -/
structure AuditEntry where
  id : String
  timestamp : Nat
  server : String
  tool : String
  persona : Option String
  role : Option String
  allowed : Bool
  policy_reason : String
  reasoning : Option String := none
  acc_token_id : Option String := none
  acc_capabilities : Option (List String) := none
  approval_required : Bool := false
  approval_status : Option ApprovalStatus := none
  approved_by : Option String := none
  executed : Bool := false
  arguments : Option String := none
  result : Option String := none
  error : Option String := none
  duration_ms : Option Nat := none
deriving DecidableEq, Repr, Inhabited

/-- Embeds the `PendingApproval` dataclass (the notification callback, an
external side effect, is not part of the state). -/
structure PendingApproval where
  id : String
  audit_entry : AuditEntry
  tool_name : String
  arguments : String
  approvers : List String
  created_at : Nat
  expires_at : Option Nat := none
deriving DecidableEq, Repr, Inhabited

/-- Dictionary assignment (`d[k] = v`). -/
def aset {κ α : Type} [DecidableEq κ] : List (κ × α) → κ → α → List (κ × α)
  | [], k, v => [(k, v)]
  | (k0, v0) :: r, k, v => if k0 = k then (k, v) :: r else (k0, v0) :: aset r k v

/-- Dictionary deletion (`del d[k]`). -/
def aremove {κ α : Type} [DecidableEq κ] : List (κ × α) → κ → List (κ × α)
  | [], _ => []
  | (k0, v0) :: r, k => if k0 = k then r else (k0, v0) :: aremove r k

/-- Embeds the `MCPGateway` state. -/
structure MCPGateway where
  policy : MCPPolicy
  audit_log : List AuditEntry := []
  pending_approvals : List (String × PendingApproval) := []
  request_counter : Nat := 0
  clock : Nat := 0
  upstream_calls : List (String × String) := []
deriving DecidableEq, Repr

/-- Embeds `MCPGateway.call_tool`.  `exec` is the upstream MCP server's
response to a `tools/call`; every dispatched call is appended to
`upstream_calls`. -/
def MCPGateway.call_tool (exec : String → String → MCPResult) (g : MCPGateway)
    (tool_name : String) (arguments : String) (persona role reasoning : Option String)
    (skip_approval : Bool) : MCPResult × MCPGateway :=
  let start_time := g.clock
  let counter := g.request_counter + 1
  let audit_id := "audit_" ++ toString counter ++ "_" ++ toString start_time
  let pr := g.policy.is_tool_allowed tool_name persona role
  let audit_entry : AuditEntry :=
    { id := audit_id, timestamp := start_time, server := g.policy.server_name,
      tool := tool_name, persona := persona, role := role,
      allowed := pr.1, policy_reason := pr.2, reasoning := reasoning,
      arguments := some arguments }
  let g1 : MCPGateway := { g with request_counter := counter, clock := g.clock + 1 }
  if !pr.1 then
    let e := { audit_entry with error := some ("Policy denied: " ++ pr.2) }
    ({ success := false, error := some ("Policy denied: " ++ pr.2), is_error := true },
     { g1 with audit_log := g1.audit_log ++ [e] })
  else
    let ra := g.policy.requires_approval tool_name
    let audit_entry := { audit_entry with approval_required := ra.1 }
    if ra.1 && !skip_approval then
      let audit_entry :=
        { audit_entry with approval_status := some ApprovalStatus.PENDING }
      let pending : PendingApproval :=
        { id := audit_id, audit_entry := audit_entry, tool_name := tool_name,
          arguments := arguments, approvers := ra.2, created_at := start_time }
      ({ success := false,
         error := some ("Approval required. Request ID: " ++ audit_id),
         is_error := true,
         content := some ("This action requires approval. Request ID: " ++ audit_id) },
       { g1 with
         pending_approvals := aset g1.pending_approvals audit_id pending,
         audit_log := g1.audit_log ++ [audit_entry] })
    else
      let res := exec tool_name arguments
      let audit_entry :=
        { audit_entry with
          executed := true,
          result := if res.success then res.content else none,
          error := if res.success then none else res.error,
          duration_ms := some 0 }
      (res,
       { g1 with
         upstream_calls := g1.upstream_calls ++ [(tool_name, arguments)],
         audit_log := g1.audit_log ++ [audit_entry] })

/-- In-place update of the pending entry's audit record (Python mutates the
object aliased from the audit log, so the logged entry with the matching id
changes status). -/
def approveMark (approved_by : String) (target : String) (e : AuditEntry) : AuditEntry :=
  if e.id = target then
    { e with approval_status := some ApprovalStatus.APPROVED,
             approved_by := some approved_by }
  else e

/-- Denial counterpart of `approveMark`. -/
def denyMark (approved_by : String) (target : String) (e : AuditEntry) : AuditEntry :=
  if e.id = target then
    { e with approval_status := some ApprovalStatus.DENIED,
             approved_by := some approved_by }
  else e

/-- Embeds `MCPGateway.approve_request`.  In the denied branch the code calls
`_record_audit` on the same mutated object, so the updated entry appears a
second time at the end of the log. -/
def MCPGateway.approve_request (exec : String → String → MCPResult)
    (g : MCPGateway) (request_id : String) (approved_by : String)
    (approved : Bool) : MCPResult × MCPGateway :=
  match alookup g.pending_approvals request_id with
  | none =>
    ({ success := false,
       error := some ("Request " ++ request_id ++ " not found or expired"),
       is_error := true }, g)
  | some pending =>
    if approved then
      let g2 : MCPGateway :=
        { g with
          audit_log := g.audit_log.map (approveMark approved_by pending.audit_entry.id),
          pending_approvals := aremove g.pending_approvals request_id }
      MCPGateway.call_tool exec g2 pending.tool_name pending.arguments
        pending.audit_entry.persona pending.audit_entry.role none true
    else
      let updated := denyMark approved_by pending.audit_entry.id pending.audit_entry
      let g2 : MCPGateway :=
        { g with
          audit_log :=
            (g.audit_log.map (denyMark approved_by pending.audit_entry.id)) ++ [updated],
          pending_approvals := aremove g.pending_approvals request_id }
      ({ success := false, error := some "Request denied", is_error := true }, g2)

theorem alookup_eq_none_of_not_mem {κ α : Type} [DecidableEq κ] {l : List (κ × α)} {k : κ}
    (h : k ∉ l.map Prod.fst) : alookup l k = none := by
  induction l with
  | nil => rfl
  | cons kv r ih =>
    obtain ⟨k0, v0⟩ := kv
    simp only [List.map_cons, List.mem_cons] at h
    push_neg at h
    rw [alookup, if_neg (fun he => h.1 he.symm), ih h.2]

theorem alookup_aremove_self {κ α : Type} [DecidableEq κ] {l : List (κ × α)} {k : κ}
    (h : (l.map Prod.fst).Nodup) : alookup (aremove l k) k = none := by
  induction l with
  | nil => rfl
  | cons kv r ih =>
    obtain ⟨k0, v0⟩ := kv
    simp only [List.map_cons, List.nodup_cons] at h
    rw [aremove]
    by_cases he : k0 = k
    · rw [if_pos he]
      subst he
      exact alookup_eq_none_of_not_mem h.1
    · rw [if_neg he, alookup, if_neg he, ih h.2]

theorem call_tool_skip_dispatches (exec : String → String → MCPResult)
    (g : MCPGateway) (t a : String) (per rol rea : Option String)
    (hallow : (g.policy.is_tool_allowed t per rol).1 = true) :
    MCPGateway.call_tool exec g t a per rol rea true =
      (exec t a,
       { g with
         request_counter := g.request_counter + 1
         clock := g.clock + 1
         upstream_calls := g.upstream_calls ++ [(t, a)]
         audit_log := g.audit_log ++
           [{ id := "audit_" ++ toString (g.request_counter + 1) ++ "_" ++
                toString g.clock
              timestamp := g.clock
              server := g.policy.server_name
              tool := t
              persona := per
              role := rol
              allowed := (g.policy.is_tool_allowed t per rol).1
              policy_reason := (g.policy.is_tool_allowed t per rol).2
              reasoning := rea
              arguments := some a
              approval_required := (g.policy.requires_approval t).1
              executed := true
              result := if (exec t a).success then (exec t a).content else none
              error := if (exec t a).success then none else (exec t a).error
              duration_ms := some 0 }] }) := by
  simp [MCPGateway.call_tool, hallow]

/-- C7 (amended: the approval transition is an in-place status update of the
original audit entry with id X, and the dispatch is recorded as a distinct new
audit entry under a fresh audit id, not under X): the first approving
resolution of a pending id X removes X from the pending map, dispatches the
parked call exactly once (one new upstream `tools/call`, whose result is
returned), marks the logged entry X approved in place, and appends one new
executed audit entry with the next counter's id.  A second resolution of X,
and any resolution of a non-pending id, returns a not-found error, changes
nothing and dispatches nothing. -/
theorem C7_approval_resolution (exec : String → String → MCPResult)
    (g : MCPGateway) (X approved_by : String) (p : PendingApproval)
    (hpend : alookup g.pending_approvals X = some p)
    (hallow : (g.policy.is_tool_allowed p.tool_name p.audit_entry.persona
      p.audit_entry.role).1 = true)
    (hnodup : (g.pending_approvals.map Prod.fst).Nodup) :
    (MCPGateway.approve_request exec g X approved_by true).2.pending_approvals
        = aremove g.pending_approvals X ∧
    alookup (MCPGateway.approve_request exec g X approved_by true).2.pending_approvals X
        = none ∧
    (MCPGateway.approve_request exec g X approved_by true).2.upstream_calls
        = g.upstream_calls ++ [(p.tool_name, p.arguments)] ∧
    (MCPGateway.approve_request exec g X approved_by true).1
        = exec p.tool_name p.arguments ∧
    (MCPGateway.approve_request exec g X approved_by true).2.audit_log.dropLast
        = g.audit_log.map (approveMark approved_by p.audit_entry.id) ∧
    ((MCPGateway.approve_request exec g X approved_by true).2.audit_log.getLast?).map
        (fun e => (e.executed, e.tool, e.id))
        = some (true, p.tool_name,
            "audit_" ++ toString (g.request_counter + 1) ++ "_" ++ toString g.clock) ∧
    MCPGateway.approve_request exec
        (MCPGateway.approve_request exec g X approved_by true).2 X approved_by true
      = ({ success := false,
           error := some ("Request " ++ X ++ " not found or expired"),
           is_error := true },
         (MCPGateway.approve_request exec g X approved_by true).2) ∧
    (∀ Y : String, ∀ b : Bool, alookup g.pending_approvals Y = none →
      MCPGateway.approve_request exec g Y approved_by b
        = ({ success := false,
             error := some ("Request " ++ Y ++ " not found or expired"),
             is_error := true }, g)) := by
  have hnotfound : ∀ (g0 : MCPGateway) (Y : String) (b : Bool),
      alookup g0.pending_approvals Y = none →
      MCPGateway.approve_request exec g0 Y approved_by b
        = ({ success := false,
             error := some ("Request " ++ Y ++ " not found or expired"),
             is_error := true }, g0) := by
    intro g0 Y b hY
    unfold MCPGateway.approve_request
    rw [hY]
  have hmain : MCPGateway.approve_request exec g X approved_by true =
      MCPGateway.call_tool exec
        { g with
          audit_log := g.audit_log.map (approveMark approved_by p.audit_entry.id),
          pending_approvals := aremove g.pending_approvals X }
        p.tool_name p.arguments p.audit_entry.persona p.audit_entry.role none true := by
    simp only [MCPGateway.approve_request, hpend]
    rw [if_pos trivial]
  rw [hmain, call_tool_skip_dispatches exec
    { g with
      audit_log := g.audit_log.map (approveMark approved_by p.audit_entry.id)
      pending_approvals := aremove g.pending_approvals X }
    p.tool_name p.arguments p.audit_entry.persona p.audit_entry.role none hallow]
  refine ⟨rfl, ?_, rfl, rfl, ?_, ?_, ?_, fun Y b hY => hnotfound g Y b hY⟩
  · exact alookup_aremove_self hnodup
  · show (List.map (approveMark approved_by p.audit_entry.id) g.audit_log ++ [_]).dropLast
      = _
    rw [List.dropLast_concat]
  · show ((List.map (approveMark approved_by p.audit_entry.id) g.audit_log
        ++ [_]).getLast?).map _ = _
    rw [List.getLast?_concat]
    rfl
  · refine hnotfound _ X true ?_
    show alookup (aremove g.pending_approvals X) X = none
    exact alookup_aremove_self hnodup

def C7exec : String → String → MCPResult :=
  fun _ _ => { success := true, content := some "ok" }

def C7Tp : ToolPolicy :=
  { tool_name := "create_issue", category := ToolCategory.WRITE,
    requires_approval := true, approvers := ["alice"] }

def C7Policy : MCPPolicy :=
  { server_name := "github", tool_policies := [("create_issue", C7Tp)] }

def C7G0 : MCPGateway := { policy := C7Policy }

/-- Gateway state after `call_tool("create_issue", ...)` parked the call as
pending approval `audit_1_0` (the spec's policy-approval scenario). -/
def C7G1 : MCPGateway :=
  (MCPGateway.call_tool C7exec C7G0 "create_issue" "title_t" none none none false).2

def C7Pending : PendingApproval :=
  (alookup C7G1.pending_approvals "audit_1_0").getD default

/-- Witness for C7: resolving the concrete pending id `audit_1_0` dispatches
the parked call once and empties the pending map; a resolution of the
non-pending id `audit_9` is a not-found error leaving the state unchanged. -/
theorem C7_approval_resolution_witness :
    (alookup C7G1.pending_approvals "audit_1_0" = some C7Pending ∧
     (C7G1.policy.is_tool_allowed C7Pending.tool_name C7Pending.audit_entry.persona
       C7Pending.audit_entry.role).1 = true ∧
     (C7G1.pending_approvals.map Prod.fst).Nodup) ∧
    (MCPGateway.approve_request C7exec C7G1 "audit_1_0" "alice" true).2.upstream_calls
      = C7G1.upstream_calls ++ [(C7Pending.tool_name, C7Pending.arguments)] ∧
    alookup (MCPGateway.approve_request C7exec C7G1 "audit_1_0" "alice"
      true).2.pending_approvals "audit_1_0" = none ∧
    MCPGateway.approve_request C7exec C7G1 "audit_9" "alice" true
      = ({ success := false,
           error := some ("Request " ++ "audit_9" ++ " not found or expired"),
           is_error := true }, C7G1) :=
  have h := C7_approval_resolution C7exec C7G1 "audit_1_0" "alice" C7Pending
    (by decide) (by decide) (by decide)
  ⟨⟨by decide, by decide, by decide⟩, h.2.2.1, h.2.1,
    h.2.2.2.2.2.2.2 "audit_9" true (by decide)⟩

/-- Counterexample to C7 as stated: after approving `audit_1_0`, the audit log
holds the original entry (id `audit_1_0`, updated in place) and the dispatch
entry under the fresh id `audit_2_1`; only one entry carries the originating
id, so the approval transition and the dispatch are not two distinct audit
entries sharing it. -/
theorem C7_counterexample :
    (MCPGateway.approve_request C7exec C7G1 "audit_1_0" "alice" true).2.audit_log.map
        (fun e => e.id) = ["audit_1_0", "audit_2_1"] ∧
    ((MCPGateway.approve_request C7exec C7G1 "audit_1_0" "alice" true).2.audit_log.countP
        (fun e => e.id == "audit_1_0")) = 1 ∧
    ("audit_2_1" : String) ≠ "audit_1_0" := by
  refine ⟨by decide, by decide, by decide⟩

/-! ## MCP client (mcp/client.py)

`_send_request` registers a waiter event under the fresh JSON-RPC id, writes
the request, and waits.  Whether the reader thread delivers a response within
the timeout is the `arrival` parameter: `none` means `event.wait` timed out,
`some resp` means the response was stored and the event set. -/

/-- JSON-RPC response as paired to a waiter: either an error message (the
`error.message` field) or a result payload, carried as its serialised text. -/
structure RPCResponse where
  error : Option String := none
  result : String := ""
deriving DecidableEq, Repr

/-- Embeds the in-flight state of `MCPClient`: the id counter, the
`_responses` map and the `_response_events` waiter table (as the list of
registered ids). -/
structure MCPClient where
  request_id : Nat := 0
  responses : List (Nat × RPCResponse) := []
  response_events : List Nat := []
deriving DecidableEq, Repr

inductive RPCOutcome
  | ok (result : String)
  | timeoutError (msg : String)
  | mcpError (msg : String)
deriving DecidableEq, Repr

/-- Embeds `MCPClient._send_request`.  On timeout the code raises before the
`pop`/`del` cleanup lines, so the waiter entry registered for the id stays in
`_response_events`; on arrival the response is popped and the event deleted,
then an error response raises an MCP error. -/
def MCPClient.send_request (st : MCPClient) (method : String)
    (arrival : Option RPCResponse) : RPCOutcome × MCPClient :=
  let request_id := st.request_id + 1
  let st1 : MCPClient :=
    { st with request_id := request_id
              response_events := st.response_events ++ [request_id] }
  match arrival with
  | none =>
    (RPCOutcome.timeoutError ("Request " ++ method ++ " timed out"), st1)
  | some resp =>
    let st2 : MCPClient :=
      { st1 with
        responses := aremove (aset st1.responses request_id resp) request_id
        response_events := st1.response_events.erase request_id }
    match resp.error with
    | some msg => (RPCOutcome.mcpError ("MCP error: " ++ msg), st2)
    | none => (RPCOutcome.ok resp.result, st2)

/-- C9 evaluation at the failing input: a request whose response never
arrives raises the timeout error, but the waiter entry for its id is still
present in the `_response_events` table when the call returns. -/
theorem C9_timeout_keeps_waiter_entry (st : MCPClient) (method : String) :
    (MCPClient.send_request st method none).1
      = RPCOutcome.timeoutError ("Request " ++ method ++ " timed out") ∧
    (st.request_id + 1) ∈ (MCPClient.send_request st method none).2.response_events ∧
    (MCPClient.send_request st method
        (some { result := "r" })).2.response_events
      = (st.response_events ++ [st.request_id + 1]).erase (st.request_id + 1) := by
  refine ⟨rfl, ?_, rfl⟩
  show _ ∈ st.response_events ++ [st.request_id + 1]
  simp

/-! ## OpenClaw wire proxy (openclaw/protocol.py, openclaw/proxy.py) -/

/-- Embeds the three frame kinds of the protocol; request params, response
payloads and event payloads are carried as the strings they serialise to,
and a response error as its `(code, message)` pair. -/
inductive WireFrame
  | req (id : String) (method : String) (params : String)
  | res (id : String) (ok : Bool) (payload : Option String)
      (error : Option (String × String))
  | event (event : String) (payload : String)
deriving DecidableEq, Repr

/-- Embeds the `METHOD_CAPABILITIES` table of openclaw/protocol.py. -/
def METHOD_CAPABILITIES : List (String × List String) :=
  [ ("status", ["operator.read"]),
    ("health", ["operator.read"]),
    ("sessions.list", ["operator.read"]),
    ("channels.status", ["operator.read"]),
    ("chat", ["operator.write"]),
    ("agent", ["operator.write"]),
    ("sessions.send", ["operator.write"]),
    ("sessions.spawn", ["operator.write"]),
    ("config.apply", ["operator.admin"]),
    ("config.patch", ["operator.admin"]),
    ("gateway.restart", ["operator.admin"]),
    ("gateway.update", ["operator.admin"]),
    ("exec.approval.resolve", ["operator.approvals"]),
    ("device.token.rotate", ["operator.pairing"]),
    ("device.token.revoke", ["operator.pairing"]) ]

/-- Embeds `get_required_scopes`. -/
def get_required_scopes (method : String) : List String :=
  (alookup METHOD_CAPABILITIES method).getD []

/-- Validated ACC token attached to a session (only the fields the proxy
reads). -/
structure ACCTokenInfo where
  token_id : String
  capabilities : List String
deriving DecidableEq, Repr

/-- Connect parameters of a session (only the fields the scope check reads). -/
structure ConnectParams where
  role : String := "operator"
  scopes : List String := []
  client_id : String := ""
deriving DecidableEq, Repr

/-- Embeds `ProxySession` (auth state and counters). -/
structure ProxySession where
  authenticated : Bool := false
  acc_token : Option ACCTokenInfo := none
  connect_params : Option ConnectParams := none
  requests_forwarded : Nat := 0
  requests_blocked : Nat := 0
deriving DecidableEq, Repr

/-- Embeds the `ProxySession.scopes` property: the CC's capabilities when a
CC was validated, else the connect request's scopes, else empty (the Python
sets are modelled as lists with membership). -/
def ProxySession.scopes (s : ProxySession) : List String :=
  match s.acc_token with
  | some t => t.capabilities
  | none =>
    match s.connect_params with
    | some cp => cp.scopes
    | none => []

/-- Python `repr` of a list of strings, as f-string interpolation renders the
required-scopes list in the denial message. -/
def pyReprStrList (l : List String) : String :=
  "[" ++ String.intercalate ", " (l.map (fun s => sq ++ s ++ sq)) ++ "]"

/-- Embeds `OpenClawProxy._check_request`. -/
def OpenClawProxy.check_request (s : ProxySession) (method : String) :
    Bool × String :=
  let required_scopes := get_required_scopes method
  if required_scopes.isEmpty then (true, "")
  else if required_scopes.any (fun sc => s.scopes.contains sc) then (true, "")
  else (false, "Missing required scope: " ++ pyReprStrList required_scopes)

/-- Embeds `Response.error_response`. -/
def errorResponse (request_id code message : String) : WireFrame :=
  WireFrame.res request_id false none (some (code, message))

/-- Outcome of handling one client message in `_forward_traffic`:
what is sent back to the client, what is forwarded upstream, the counter
deltas, and the DCT event types logged. -/
structure ForwardStep where
  toClient : Option WireFrame := none
  toUpstream : Option String := none
  blocked : Nat := 0
  forwarded : Nat := 0
  events : List String := []
deriving DecidableEq, Repr

/-- Embeds the per-message body of `client_to_upstream` in
`OpenClawProxy._forward_traffic`: requests are policy-checked (denied ones
get a synthesized `POLICY_DENIED` response and are not forwarded), all other
frames are forwarded verbatim. -/
def OpenClawProxy.handle_client_message (s : ProxySession) (raw : String)
    (frame : WireFrame) : ForwardStep :=
  match frame with
  | WireFrame.req rid method _ =>
    let pr := OpenClawProxy.check_request s method
    if !pr.1 then
      { toClient := some (errorResponse rid "POLICY_DENIED" pr.2),
        blocked := 1, events := ["request_denied"] }
    else
      { toUpstream := some raw, forwarded := 1, events := ["request_forwarded"] }
  | _ => { toUpstream := some raw }

theorem alookup_mem {κ α : Type} [DecidableEq κ] {l : List (κ × α)} {k : κ}
    {v : α} (h : alookup l k = some v) : (k, v) ∈ l := by
  induction l with
  | nil => cases h
  | cons kv r ih =>
    obtain ⟨k0, v0⟩ := kv
    rw [alookup] at h
    by_cases he : k0 = k
    · rw [if_pos he] at h
      subst he
      cases h
      exact List.mem_cons_self _ _
    · rw [if_neg he] at h
      exact List.mem_cons_of_mem _ (ih h)

theorem method_capabilities_singleton :
    ∀ p ∈ METHOD_CAPABILITIES, p.2.length = 1 := by
  decide

/-- C6: for every client request frame, if the method is in the static
method-to-scopes table and some required scope is absent from the session's
scopes (derived from the CC's capabilities, or from connect scopes when no
CC), the proxy synthesizes an `ok=false` response with code `POLICY_DENIED`
and forwards nothing upstream; a method not in the table is forwarded
verbatim with no scope check. -/
theorem C6_scope_gating (s : ProxySession) (raw rid params method : String) :
    (∀ reqScopes : List String,
      alookup METHOD_CAPABILITIES method = some reqScopes →
      (∃ sc ∈ reqScopes, sc ∉ s.scopes) →
      OpenClawProxy.handle_client_message s raw (WireFrame.req rid method params) =
        { toClient := some (errorResponse rid "POLICY_DENIED"
            ("Missing required scope: " ++ pyReprStrList reqScopes)),
          toUpstream := none, blocked := 1, forwarded := 0,
          events := ["request_denied"] }) ∧
    (alookup METHOD_CAPABILITIES method = none →
      OpenClawProxy.handle_client_message s raw (WireFrame.req rid method params) =
        { toClient := none, toUpstream := some raw, blocked := 0, forwarded := 1,
          events := ["request_forwarded"] }) := by
  constructor
  · intro reqScopes hmem habsent
    obtain ⟨sc0, hsc0⟩ := List.length_eq_one.mp
      (method_capabilities_singleton (method, reqScopes) (alookup_mem hmem))
    subst hsc0
    obtain ⟨sc, hscmem, hscabs⟩ := habsent
    rw [List.mem_singleton] at hscmem
    subst hscmem
    have hreq : get_required_scopes method = [sc] := by
      rw [get_required_scopes, hmem]
      rfl
    rw [OpenClawProxy.handle_client_message]
    simp only [OpenClawProxy.check_request, hreq]
    simp [hscabs]
  · intro hmem
    have hreq : get_required_scopes method = [] := by
      rw [get_required_scopes, hmem]
      rfl
    rw [OpenClawProxy.handle_client_message]
    simp [OpenClawProxy.check_request, hreq]

def C6Session : ProxySession :=
  { authenticated := true,
    acc_token := some { token_id := "acc_1", capabilities := ["operator.write"] } }

/-- Witness for C6: a session authorized via a CC with `operator.write` gets
`config.apply` denied without forwarding, while an unlisted method passes
through untouched. -/
theorem C6_scope_gating_witness :
    (alookup METHOD_CAPABILITIES "config.apply" = some ["operator.admin"] ∧
     "operator.admin" ∈ (["operator.admin"] : List String) ∧
     "operator.admin" ∉ C6Session.scopes) ∧
    OpenClawProxy.handle_client_message C6Session "rawmsg"
        (WireFrame.req "7" "config.apply" "cfg") =
      { toClient := some (errorResponse "7" "POLICY_DENIED"
          ("Missing required scope: " ++ pyReprStrList ["operator.admin"])),
        toUpstream := none, blocked := 1, forwarded := 0,
        events := ["request_denied"] } ∧
    (alookup METHOD_CAPABILITIES "tools.custom" = none ∧
     OpenClawProxy.handle_client_message C6Session "rawmsg2"
         (WireFrame.req "8" "tools.custom" "p") =
       { toClient := none, toUpstream := some "rawmsg2", blocked := 0,
         forwarded := 1, events := ["request_forwarded"] }) :=
  ⟨⟨by decide, by decide, by decide⟩,
    (C6_scope_gating C6Session "rawmsg" "7" "cfg" "config.apply").1
      ["operator.admin"] (by decide) ⟨"operator.admin", by decide, by decide⟩,
    by decide,
    (C6_scope_gating C6Session "rawmsg2" "8" "p" "tools.custom").2 (by decide)⟩

/-! ## ACC token validator (acc/validator.py, acc/crypto.py)

JSON values are embedded as the `Json` type; the stdlib primitives the
validator calls are the fields of `CryptoDeps`:

* `decodeB64Json s` stands for `json.loads(base64.urlsafe_b64decode(s + '=='))`,
  `none` meaning the call raised;
* `b64decode s` stands for the raw `base64.urlsafe_b64decode(s + '==')`;
* `sigVerify pk sig msg` stands for Ed25519 `public_key.verify`, with keys
  named by naturals;
* `parseISO` stands for `datetime.fromisoformat`, yielding an epoch instant;
* `now` is the current instant;
* `b64JsonLoose s` stands for `json.loads(base64.b64decode(s))` of the
  fallback parser, and `plainJson` for `json.loads(s)`. -/

inductive Json
  | null
  | bool (b : Bool)
  | num (n : Int)
  | str (s : String)
  | arr (l : List Json)
  | obj (l : List (String × Json))

/-- Python truthiness of a JSON value. -/
def Json.truthy : Json → Bool
  | Json.null => false
  | Json.bool b => b
  | Json.num n => !(n == 0)
  | Json.str s => !s.isEmpty
  | Json.arr l => !l.isEmpty
  | Json.obj l => !l.isEmpty

/-- Splitting on a separator character, as Python `str.split` does
(structurally recursive, so concrete tokens evaluate). -/
def pySplitAux (c : Char) : List Char → List Char → List (List Char)
  | [], acc => [acc.reverse]
  | x :: r, acc =>
    if x = c then acc.reverse :: pySplitAux c r []
    else pySplitAux c r (x :: acc)

/-- Python `token_str.split(sep)` for a one-character separator. -/
def pySplit (s : String) (c : Char) : List String :=
  (pySplitAux c s.data []).map String.mk

/-- Python `c in s` membership of a character in a string. -/
def pyContains (s : String) (c : Char) : Bool := s.data.contains c

/-- Whether a JSON value equals a given Python string. -/
def Json.isStr : Json → String → Bool
  | Json.str t, s => t == s
  | _, _ => false

/-- Python `str()` of a JSON value, as f-string interpolation renders it in
error messages (composite values rendered schematically). -/
def pyStr : Json → String
  | Json.null => "None"
  | Json.bool true => "True"
  | Json.bool false => "False"
  | Json.num n => toString n
  | Json.str s => s
  | Json.arr _ => "[...]"
  | Json.obj _ => "\x7b...\x7d"

structure CryptoDeps where
  decodeB64Json : String → Option Json
  b64decode : String → Option (List Nat)
  sigVerify : Nat → List Nat → String → Bool
  parseISO : String → Option Int
  now : Int
  b64JsonLoose : String → Option Json
  plainJson : String → Option Json

/-- Embeds the key state of `ACCVerifier`. -/
structure ACCVerifierState where
  public_key : Option Nat := none
  trusted_keys : List (String × Nat) := []
deriving DecidableEq, Repr

/-- Embeds the configuration of `ACCValidator`: the expected issuer, the dev
flag, and the verifier when crypto is available. -/
structure ACCValidatorCfg where
  issuer : Option String := none
  dev_mode : Bool := false
  verifier : Option ACCVerifierState := none
deriving DecidableEq, Repr

/-- Embeds the `ACCToken` dataclass as the validator builds it: identity
fields kept as JSON values (the code copies them with `.get` defaults),
datetimes parsed to instants. -/
structure ACCToken where
  token_id : Json
  issuer : Json
  subject : Json
  capabilities : Json
  constraints : Json
  issued_at : Int
  expires_at : Option Int
  signature : Json

/-- Embeds `ACCValidationResult`. -/
structure ACCValidationResult where
  valid : Bool
  token : Option ACCToken := none
  error : Option String := none

/-- Generic result of the `try`-wrapped crypto verification
(`ACCVerifier.verify` catches every exception with this error shape). -/
def verifyError : Bool × Option Json × Option String :=
  (false, none, some "Verification error")

/-- Body of `ACCVerifier.verify` after the `token_str.split('.')`. -/
def verifyParts (deps : CryptoDeps) (vs : ACCVerifierState) :
    List String → Bool × Option Json × Option String
  | [header_b64, payload_b64, signature_b64] =>
    match deps.decodeB64Json header_b64 with
    | none => verifyError
    | some header =>
      match deps.decodeB64Json payload_b64 with
      | none => verifyError
      | some payload =>
        match header with
        | Json.obj hfields =>
          let kid := (alookup hfields "kid").getD Json.null
          let fromTrusted :=
            match kid with
            | Json.str s => alookup vs.trusted_keys s
            | _ => none
          match (if kid.truthy && fromTrusted.isSome then fromTrusted
                 else vs.public_key) with
          | none => (false, some payload, some ("Unknown key: " ++ pyStr kid))
          | some pk =>
            match deps.b64decode signature_b64 with
            | none => verifyError
            | some sig =>
              if !(deps.sigVerify pk sig (header_b64 ++ "." ++ payload_b64)) then
                (false, some payload, some "Invalid signature")
              else
                match payload with
                | Json.obj pfields =>
                  let ea := (alookup pfields "expires_at").getD Json.null
                  if ea.truthy then
                    match ea with
                    | Json.str s =>
                      match deps.parseISO (s.replace "Z" "+00:00") with
                      | none => verifyError
                      | some t =>
                        if deps.now > t then (false, some payload, some "Token expired")
                        else (true, some payload, none)
                    | _ => verifyError
                  else (true, some payload, none)
                | _ => verifyError
        | _ => verifyError
  | _ => (false, none, some "Invalid token format")

/-- Embeds `ACCVerifier.verify`. -/
def ACCVerifier.verify (deps : CryptoDeps) (vs : ACCVerifierState)
    (token_str : String) : Bool × Option Json × Option String :=
  verifyParts deps vs (pySplit token_str (Char.ofNat 46))

/-- Token construction shared by the two validator paths: datetime fields
parsed with `fromisoformat` (the crypto path first applies
`.replace('Z', '+00:00')` to `expires_at`), `none` when a parse raises. -/
def buildToken (deps : CryptoDeps) (useZReplace : Bool)
    (data : List (String × Json)) (sig : Json) : Option ACCToken :=
  let issued? : Option Int :=
    match alookup data "issued_at" with
    | none => some deps.now
    | some (Json.str s) => deps.parseISO s
    | some _ => none
  match issued? with
  | none => none
  | some iat =>
    let eaJ := (alookup data "expires_at").getD Json.null
    let expires? : Option (Option Int) :=
      if eaJ.truthy then
        match eaJ with
        | Json.str s =>
          match deps.parseISO (if useZReplace then s.replace "Z" "+00:00" else s) with
          | none => none
          | some t => some (some t)
        | _ => none
      else some none
    match expires? with
    | none => none
    | some ea =>
      some { token_id := (alookup data "token_id").getD (Json.str "unknown")
             issuer := (alookup data "issuer").getD (Json.str "unknown")
             subject := (alookup data "subject").getD (Json.str "unknown")
             capabilities := (alookup data "capabilities").getD (Json.arr [])
             constraints := (alookup data "constraints").getD (Json.obj [])
             issued_at := iat
             expires_at := ea
             signature := sig }

/-- Embeds `ACCValidator._parse_token`; `none` means the parse raised (the
caller catches it). -/
def parse_token (deps : CryptoDeps) (token_str : String) : Option ACCToken :=
  match pySplit token_str (Char.ofNat 46) with
  | [_, payload_b64, signature] =>
    match deps.decodeB64Json payload_b64 with
    | none => none
    | some (Json.obj data) => buildToken deps false data (Json.str signature)
    | some _ => none
  | _ =>
    match deps.b64JsonLoose token_str with
    | some (Json.obj data) =>
      buildToken deps false data ((alookup data "signature").getD Json.null)
    | some _ => none
    | none =>
      match deps.plainJson token_str with
      | some (Json.obj data) =>
        buildToken deps false data ((alookup data "signature").getD Json.null)
      | _ => none

/-- Embeds `ACCToken.is_expired`. -/
def ACCToken.is_expired (now : Int) (t : ACCToken) : Bool :=
  match t.expires_at with
  | none => false
  | some e => now > e

/-- Embeds `ACCValidator._validate_structure` (dev mode). -/
def validate_structure (deps : CryptoDeps) (token_str : String) :
    ACCValidationResult :=
  match parse_token deps token_str with
  | none => { valid := false, error := some "Invalid structure" }
  | some t => { valid := true, token := some t }

/-- Embeds the structure-only fallback path of `ACCValidator.validate`
(lines 202-224): parse, expiry check, issuer check, then accept. -/
def validateFallback (deps : CryptoDeps) (cfg : ACCValidatorCfg)
    (token_str : String) : ACCValidationResult :=
  match parse_token deps token_str with
  | none => { valid := false, error := some "Parse error" }
  | some tok =>
    if tok.is_expired deps.now then
      { valid := false, token := some tok, error := some "Token expired" }
    else if pyTruthy cfg.issuer && !(tok.issuer.isStr (cfg.issuer.getD "")) then
      { valid := false, token := some tok,
        error := some ("Invalid issuer: expected " ++ cfg.issuer.getD "" ++
          ", got " ++ pyStr tok.issuer) }
    else { valid := true, token := some tok }

/-- Embeds `ACCValidator.validate` with `dev_mode = false` reachable paths;
the outer `Option` is `none` when the un-caught token construction of the
crypto branch raises. -/
def ACCValidator.validate (deps : CryptoDeps) (cfg : ACCValidatorCfg)
    (token_str : String) : Option ACCValidationResult :=
  if cfg.dev_mode then some (validate_structure deps token_str)
  else
    match cfg.verifier with
    | some vs =>
      if pyContains token_str (Char.ofNat 46) then
        let vr := ACCVerifier.verify deps vs token_str
        if !vr.1 then some { valid := false, error := vr.2.2 }
        else
          match vr.2.1 with
          | some (Json.obj pdata) =>
            match buildToken deps true pdata (Json.str "[verified]") with
            | none => none
            | some tok =>
              if pyTruthy cfg.issuer && !(tok.issuer.isStr (cfg.issuer.getD "")) then
                some { valid := false
                       token := some tok
                       error := some ("Invalid issuer: expected " ++
                         cfg.issuer.getD "" ++ ", got " ++ pyStr tok.issuer) }
              else some { valid := true, token := some tok }
          | _ => none
      else validateFallback deps cfg token_str
    | none => validateFallback deps cfg token_str

theorem verifyParts_not3 (deps : CryptoDeps) (vs : ACCVerifierState)
    {l : List String} (h : l.length ≠ 3) :
    verifyParts deps vs l = (false, none, some "Invalid token format") := by
  rcases l with _ | ⟨a, _ | ⟨b, _ | ⟨c, _ | ⟨d, t⟩⟩⟩⟩
  · rfl
  · rfl
  · rfl
  · exact absurd rfl h
  · rfl

theorem verify_bad_segments_invalid (deps : CryptoDeps) (vs : ACCVerifierState)
    (token : String)
    (hbad : (pySplit token (Char.ofNat 46)).length ≠ 3 ∨
      (∃ h p s, pySplit token (Char.ofNat 46) = [h, p, s] ∧
        (deps.decodeB64Json h = none ∨ deps.decodeB64Json p = none))) :
    (ACCVerifier.verify deps vs token).1 = false := by
  unfold ACCVerifier.verify
  rcases hbad with hlen | ⟨h, p, s, hsplit, hdec⟩
  · rw [verifyParts_not3 deps vs hlen]
  · rw [hsplit]
    rcases hdec with hd | hd
    · simp [verifyParts, hd, verifyError]
    · cases hh : deps.decodeB64Json h with
      | none => simp [verifyParts, hh, verifyError]
      | some j => simp [verifyParts, hh, hd, verifyError]

/-- C3 (amended: full rejection of malformed segments holds on the
cryptographic path, which a validator with a configured verifier takes for
every token containing a dot; dot-free tokens fall back to structure-only
validation and can be accepted, see the counterexample): with
`dev_mode = false`, a configured verifier and a token containing a dot,
validation returns `valid = false` whenever the dot-split does not have
exactly three segments or the header or payload segment fails base64/JSON
decoding. -/
theorem C3_bad_segments_rejected (deps : CryptoDeps) (cfg : ACCValidatorCfg)
    (vs : ACCVerifierState) (token : String)
    (hdev : cfg.dev_mode = false) (hver : cfg.verifier = some vs)
    (hdot : pyContains token (Char.ofNat 46) = true)
    (hbad : (pySplit token (Char.ofNat 46)).length ≠ 3 ∨
      (∃ h p s, pySplit token (Char.ofNat 46) = [h, p, s] ∧
        (deps.decodeB64Json h = none ∨ deps.decodeB64Json p = none))) :
    (ACCValidator.validate deps cfg token).map (fun r => r.valid) = some false := by
  have hv := verify_bad_segments_invalid deps vs token hbad
  unfold ACCValidator.validate
  rw [hdev, hver]
  simp only [Bool.false_eq_true, if_false, hdot, if_true]
  rw [if_pos (by rw [hv]; rfl)]
  rfl

def C3wDeps : CryptoDeps :=
  { decodeB64Json := fun _ => none
    b64decode := fun _ => none
    sigVerify := fun _ _ _ => false
    parseISO := fun _ => none
    now := 0
    b64JsonLoose := fun _ => none
    plainJson := fun _ => none }

def C3wCfg : ACCValidatorCfg :=
  { dev_mode := false, verifier := some { public_key := some 1 } }

/-- Witness for C3: the two-segment token `a.b` is rejected by a validator
holding a verifier key. -/
theorem C3_bad_segments_witness :
    (C3wCfg.dev_mode = false ∧
     C3wCfg.verifier = some { public_key := some 1 } ∧
     (pyContains "a.b" (Char.ofNat 46) = true) ∧
     (pySplit "a.b" (Char.ofNat 46)).length ≠ 3) ∧
    (ACCValidator.validate C3wDeps C3wCfg "a.b").map (fun r => r.valid)
      = some false :=
  ⟨⟨rfl, rfl, by decide, by decide⟩,
    C3_bad_segments_rejected C3wDeps C3wCfg { public_key := some 1 } "a.b"
      rfl rfl (by decide) (Or.inl (by decide))⟩

def C3xDeps : CryptoDeps :=
  { decodeB64Json := fun _ => none
    b64decode := fun _ => none
    sigVerify := fun _ _ _ => false
    parseISO := fun _ => none
    now := 0
    b64JsonLoose := fun _ => none
    plainJson := fun s => if s = "\x7b\x7d" then some (Json.obj []) else none }

/-- Counterexample to C3 as stated: the dot-free plain-JSON token `{}` has no
header, payload or signature segment, yet a validator with `dev_mode = false`
and a configured verifier accepts it with `valid = true` through the
structure-only fallback (`json.loads("{}")` succeeds, no expiry, no expected
issuer configured). -/
theorem C3_counterexample :
    (pySplit "\x7b\x7d" (Char.ofNat 46)).length = 1 ∧
    pyContains "\x7b\x7d" (Char.ofNat 46) = false ∧
    (ACCValidator.validate C3xDeps C3wCfg "\x7b\x7d").map (fun r => r.valid)
      = some true := by
  refine ⟨by decide, by decide, rfl⟩

/-! ## Agent persona hashing (agents/models.py) -/

structure PersonaFile where
  filename : String
  content : String
deriving DecidableEq, Repr

/-- Embeds `PersonaFile.hash` (SHA-256 hex digest of the content, abstracted
as the parameter `H`). -/
def PersonaFile.hash (H : String → String) (f : PersonaFile) : String :=
  H f.content

/-- Code-point lexicographic order on char lists (Python string `<`). -/
def lexLt : List Char → List Char → Bool
  | [], [] => false
  | [], _ :: _ => true
  | _ :: _, [] => false
  | x :: xs, y :: ys =>
    if x.toNat < y.toNat then true
    else if y.toNat < x.toNat then false
    else lexLt xs ys

/-- Python string comparison. -/
def strLtB (a b : String) : Bool := lexLt a.data b.data

/-- Stable insertion by filename: an element moves past strictly smaller
filenames only, as Python's stable `sorted` keeps equal keys in input
order. -/
def insertByFilename (f : PersonaFile) : List PersonaFile → List PersonaFile
  | [] => [f]
  | g :: r =>
    if strLtB g.filename f.filename then g :: insertByFilename f r
    else f :: g :: r

/-- Embeds `sorted(self.files, key=lambda f: f.filename)`. -/
def sortByFilename : List PersonaFile → List PersonaFile
  | [] => []
  | f :: r => insertByFilename f (sortByFilename r)

/-- Structural embedding of `"".join`. -/
def joinEmpty : List String → String
  | [] => ""
  | x :: r => x ++ joinEmpty r

/-- The `f"{f.filename}:{f.hash()}"` part for one file. -/
def personaPart (H : String → String) (f : PersonaFile) : String :=
  f.filename ++ ":" ++ PersonaFile.hash H f

/-- The `combined` string built inside `AgentPersona.compute_hash`. -/
def encodeStr (H : String → String) (files : List PersonaFile) : String :=
  joinEmpty ((sortByFilename files).map (personaPart H))

/-- Embeds `AgentPersona.compute_hash`. -/
def AgentPersona.compute_hash (H : String → String)
    (files : List PersonaFile) : String :=
  H (encodeStr H files)

/-- Parts joined with `"|"`. -/
def joinBar : List String → String
  | [] => ""
  | [x] => x
  | x :: r => x ++ "|" ++ joinBar r

/-- Hash formula as spec section 4.6 words it, with the `"|"` separator;
written from the spec for the refinement comparison. -/
def specPersonaHash (H : String → String) (files : List PersonaFile) : String :=
  H (joinBar ((sortByFilename files).map (fun f => f.filename ++ ":" ++ H f.content)))

/-- Hash formula as the spec words it but with the separator corrected to the
code's empty string; written from the spec for the amended refinement
conjunct. -/
def specPersonaHashConcat (H : String → String) (files : List PersonaFile) : String :=
  H (joinEmpty ((sortByFilename files).map (fun f => f.filename ++ ":" ++ H f.content)))

theorem length_joinEmpty (l : List String) :
    (joinEmpty l).length = (l.map String.length).sum := by
  induction l with
  | nil => rfl
  | cons x r ih => simp [joinEmpty, ih]

theorem insertByFilename_perm (f : PersonaFile) (l : List PersonaFile) :
    (insertByFilename f l).Perm (f :: l) := by
  induction l with
  | nil => exact List.Perm.refl _
  | cons g r ih =>
    rw [insertByFilename]
    by_cases h : strLtB g.filename f.filename = true
    · rw [if_pos h]
      exact (ih.cons g).trans (List.Perm.swap f g r)
    · rw [if_neg h]

theorem sortByFilename_perm (l : List PersonaFile) :
    (sortByFilename l).Perm l := by
  induction l with
  | nil => exact List.Perm.refl _
  | cons f r ih =>
    exact (insertByFilename_perm f (sortByFilename r)).trans (ih.cons f)

theorem personaPart_length (H : String → String) (f : PersonaFile) :
    (personaPart H f).length =
      f.filename.length + 1 + (PersonaFile.hash H f).length := by
  simp [personaPart, show (":" : String).length = 1 from rfl]

theorem encodeStr_length (H : String → String) (files : List PersonaFile) :
    (encodeStr H files).length =
      (files.map (fun f => (personaPart H f).length)).sum := by
  rw [encodeStr, length_joinEmpty, List.map_map]
  exact ((sortByFilename_perm files).map _).sum_eq

/-- The combined string strictly lengthens when a file is added, so it can
never coincide with the original one. -/
theorem encodeStr_append_ne (H : String → String) (p : List PersonaFile)
    (f : PersonaFile) : encodeStr H (p ++ [f]) ≠ encodeStr H p := by
  intro he
  have hlen := congrArg String.length he
  rw [encodeStr_length, encodeStr_length, List.map_append, List.sum_append] at hlen
  have hpos : 0 < (personaPart H f).length := by
    rw [personaPart_length]
    omega
  simp at hlen
  omega

/-- Colon character of the `filename:hash` separator. -/
def colonChar : Char := Char.ofNat 58

theorem colon_split_inj (a : List Char) :
    ∀ (b x y : List Char), colonChar ∉ a → colonChar ∉ b →
    a ++ colonChar :: x = b ++ colonChar :: y → a = b ∧ x = y := by
  induction a with
  | nil =>
    intro b x y _ hb h
    cases b with
    | nil => simpa using h
    | cons d b2 =>
      exfalso
      simp only [List.nil_append, List.cons_append, List.cons.injEq] at h
      rw [List.mem_cons] at hb
      push_neg at hb
      exact hb.1 h.1
  | cons c a2 ih =>
    intro b x y ha hb h
    rw [List.mem_cons] at ha
    push_neg at ha
    cases b with
    | nil =>
      exfalso
      simp only [List.cons_append, List.nil_append, List.cons.injEq] at h
      exact ha.1 h.1.symm
    | cons d b2 =>
      simp only [List.cons_append, List.cons.injEq] at h
      rw [List.mem_cons] at hb
      push_neg at hb
      obtain ⟨he, hx⟩ := ih b2 x y ha.2 hb.2 h.2
      exact ⟨by rw [h.1, he], hx⟩

theorem part_head_inj (f1 f2 h1 h2 rest1 rest2 : String) (L : Nat)
    (hf1 : colonChar ∉ f1.data) (hf2 : colonChar ∉ f2.data)
    (hl1 : h1.length = L) (hl2 : h2.length = L)
    (heq : (f1 ++ ":" ++ h1) ++ rest1 = (f2 ++ ":" ++ h2) ++ rest2) :
    f1 = f2 ∧ h1 = h2 ∧ rest1 = rest2 := by
  have edata : ∀ (f h r : String),
      (((f ++ ":" ++ h) ++ r)).data = f.data ++ colonChar :: (h.data ++ r.data) := by
    intro f h r
    show ((f.data ++ [colonChar]) ++ h.data) ++ r.data = _
    simp [List.append_assoc]
  have hd : f1.data ++ colonChar :: (h1.data ++ rest1.data)
      = f2.data ++ colonChar :: (h2.data ++ rest2.data) := by
    rw [← edata, ← edata]
    exact congrArg String.data heq
  obtain ⟨hfe, hre⟩ := colon_split_inj f1.data f2.data _ _ hf1 hf2 hd
  have hlen : h1.data.length = h2.data.length := by
    have e1 : h1.data.length = L := hl1
    have e2 : h2.data.length = L := hl2
    rw [e1, e2]
  refine ⟨String.ext hfe, String.ext (List.append_inj_left hre hlen),
    String.ext (List.append_inj_right hre hlen)⟩

theorem joinParts_inj (L : Nat) (l1 : List (String × String)) :
    ∀ (l2 : List (String × String)),
    (∀ pr ∈ l1, colonChar ∉ pr.1.data) → (∀ pr ∈ l2, colonChar ∉ pr.1.data) →
    (∀ pr ∈ l1, pr.2.length = L) → (∀ pr ∈ l2, pr.2.length = L) →
    joinEmpty (l1.map (fun pr => pr.1 ++ ":" ++ pr.2)) =
      joinEmpty (l2.map (fun pr => pr.1 ++ ":" ++ pr.2)) → l1 = l2 := by
  have hplen : ∀ (pr : String × String) (rest : String),
      1 ≤ ((pr.1 ++ ":" ++ pr.2) ++ rest).length := by
    intro pr rest
    rw [String.length_append, String.length_append, String.length_append,
      show (":" : String).length = 1 from rfl]
    omega
  induction l1 with
  | nil =>
    intro l2 _ _ _ _ h
    cases l2 with
    | nil => rfl
    | cons pr r =>
      exfalso
      have := congrArg String.length h
      simp only [List.map_nil, List.map_cons, joinEmpty] at this
      have h1 := hplen pr (joinEmpty (r.map (fun pr => pr.1 ++ ":" ++ pr.2)))
      rw [← this] at h1
      simp at h1
  | cons pr1 r1 ih =>
    intro l2 ha hb hc hd h
    cases l2 with
    | nil =>
      exfalso
      have := congrArg String.length h
      simp only [List.map_nil, List.map_cons, joinEmpty] at this
      have h1 := hplen pr1 (joinEmpty (r1.map (fun pr => pr.1 ++ ":" ++ pr.2)))
      rw [this] at h1
      simp at h1
    | cons pr2 r2 =>
      simp only [List.map_cons, joinEmpty] at h
      obtain ⟨hfe, hhe, hre⟩ := part_head_inj pr1.1 pr2.1 pr1.2 pr2.2 _ _ L
        (ha pr1 (List.mem_cons_self _ _)) (hb pr2 (List.mem_cons_self _ _))
        (hc pr1 (List.mem_cons_self _ _)) (hd pr2 (List.mem_cons_self _ _)) h
      have hr := ih r2
        (fun pr hpr => ha pr (List.mem_cons_of_mem _ hpr))
        (fun pr hpr => hb pr (List.mem_cons_of_mem _ hpr))
        (fun pr hpr => hc pr (List.mem_cons_of_mem _ hpr))
        (fun pr hpr => hd pr (List.mem_cons_of_mem _ hpr)) hre
      rw [hr]
      have : pr1 = pr2 := Prod.ext hfe hhe
      rw [this]

/-- Renaming one file changes the combined string, provided filenames are
colon-free and the inner hash digests share one length (true of SHA-256 hex
digests): the concatenation then decodes uniquely into its parts, and the
filename multisets of the two personas differ. -/
theorem encodeStr_set_ne (H : String → String) (p : List PersonaFile) (i : Nat)
    (f1 f2 c : String) (L : Nat)
    (hget : p[i]? = some ⟨f1, c⟩) (hne : f2 ≠ f1)
    (hcf : ∀ g ∈ p, colonChar ∉ g.filename.data)
    (hcf2 : colonChar ∉ f2.data)
    (hlen : ∀ g ∈ p, (H g.content).length = L) :
    encodeStr H (p.set i ⟨f2, c⟩) ≠ encodeStr H p := by
  intro he
  have hk : i < p.length := by
    by_contra hc2
    push_neg at hc2
    rw [List.getElem?_eq_none hc2] at hget
    cases hget
  have hmemq : ∀ g ∈ p.set i (⟨f2, c⟩ : PersonaFile), g ∈ p ∨ g = ⟨f2, c⟩ :=
    fun g hg => List.mem_or_eq_of_mem_set hg
  have hcmem : (⟨f1, c⟩ : PersonaFile) ∈ p := List.getElem?_mem hget
  have hmapform : ∀ (x : List PersonaFile),
      (sortByFilename x).map (personaPart H) =
        ((sortByFilename x).map (fun g => (g.filename, H g.content))).map
          (fun pr => pr.1 ++ ":" ++ pr.2) := by
    intro x
    rw [List.map_map]
    rfl
  have hsortmem : ∀ (x : List PersonaFile) (g : PersonaFile),
      g ∈ sortByFilename x → g ∈ x :=
    fun x g hg => (sortByFilename_perm x).subset hg
  have hpairs : (sortByFilename (p.set i ⟨f2, c⟩)).map
        (fun g => (g.filename, H g.content))
      = (sortByFilename p).map (fun g => (g.filename, H g.content)) := by
    refine joinParts_inj L _ _ ?_ ?_ ?_ ?_ ?_
    · intro pr hpr
      obtain ⟨g, hg, hpr2⟩ := List.mem_map.mp hpr
      rcases hmemq g (hsortmem _ g hg) with hgp | hgf
      · rw [← hpr2]
        exact hcf g hgp
      · rw [← hpr2, hgf]
        exact hcf2
    · intro pr hpr
      obtain ⟨g, hg, hpr2⟩ := List.mem_map.mp hpr
      rw [← hpr2]
      exact hcf g (hsortmem _ g hg)
    · intro pr hpr
      obtain ⟨g, hg, hpr2⟩ := List.mem_map.mp hpr
      rcases hmemq g (hsortmem _ g hg) with hgp | hgf
      · rw [← hpr2]
        exact hlen g hgp
      · rw [← hpr2, hgf]
        exact hlen ⟨f1, c⟩ hcmem
    · intro pr hpr
      obtain ⟨g, hg, hpr2⟩ := List.mem_map.mp hpr
      rw [← hpr2]
      exact hlen g (hsortmem _ g hg)
    · rw [← hmapform, ← hmapform]
      exact he
  have hfn : (sortByFilename (p.set i ⟨f2, c⟩)).map (fun g => g.filename)
      = (sortByFilename p).map (fun g => g.filename) := by
    have := congrArg (List.map Prod.fst) hpairs
    simpa [List.map_map] using this
  have hcount : ((p.set i (⟨f2, c⟩ : PersonaFile)).map (fun g => g.filename)).count f1
      = (p.map (fun g => g.filename)).count f1 := by
    have c1 := ((sortByFilename_perm (p.set i ⟨f2, c⟩)).map
      (fun g => g.filename)).count_eq f1
    have c2 := ((sortByFilename_perm p).map (fun g => g.filename)).count_eq f1
    rw [← c1, ← c2, hfn]
  have hsplitp : p = p.take i ++ (⟨f1, c⟩ : PersonaFile) :: p.drop (i + 1) := by
    have hgete : p[i] = (⟨f1, c⟩ : PersonaFile) := by
      rw [List.getElem?_eq_getElem hk] at hget
      exact Option.some.inj hget
    conv =>
      lhs
      rw [← List.take_append_drop i p, List.drop_eq_getElem_cons hk, hgete]
  have hsplitq : p.set i (⟨f2, c⟩ : PersonaFile)
      = p.take i ++ (⟨f2, c⟩ : PersonaFile) :: p.drop (i + 1) :=
    List.set_eq_take_cons_drop _ hk
  rw [hsplitq] at hcount
  conv at hcount =>
    rhs
    rw [hsplitp]
  rw [List.map_append, List.map_append, List.map_cons, List.map_cons,
    List.count_append, List.count_append, List.count_cons, List.count_cons] at hcount
  have hbe1 : ((f2 : String) == f1) = false := by
    rw [beq_eq_false_iff_ne]
    exact hne
  have hbe2 : ((f1 : String) == f1) = true := by
    rw [beq_iff_eq]
  rw [hbe1, hbe2] at hcount
  simp at hcount

/-- C8 (amended: the code joins the sorted `filename:H(content)` parts with
the empty separator, not `"|"`): the canonical hash is
`H(concat(f.filename + ":" + H(f.content)))` over the files sorted by
filename; personas with identical sorted file lists hash equal regardless of
input order; adding (hence, symmetrically, removing) a file changes the hash
absent a hash collision on the two combined strings; and renaming a file
changes the hash absent such a collision, provided filenames contain no colon
and the content digests share one length (as SHA-256 hex digests do). -/
theorem C8_persona_hash (H : String → String) :
    (∀ files, AgentPersona.compute_hash H files = specPersonaHashConcat H files) ∧
    (∀ p q, sortByFilename p = sortByFilename q →
      AgentPersona.compute_hash H p = AgentPersona.compute_hash H q) ∧
    (∀ (p : List PersonaFile) (f : PersonaFile),
      (H (encodeStr H (p ++ [f])) = H (encodeStr H p) →
        encodeStr H (p ++ [f]) = encodeStr H p) →
      AgentPersona.compute_hash H (p ++ [f]) ≠ AgentPersona.compute_hash H p) ∧
    (∀ (p : List PersonaFile) (i : Nat) (f1 f2 c : String) (L : Nat),
      p[i]? = some ⟨f1, c⟩ → f2 ≠ f1 →
      (∀ g ∈ p, colonChar ∉ g.filename.data) → colonChar ∉ f2.data →
      (∀ g ∈ p, (H g.content).length = L) →
      (H (encodeStr H (p.set i ⟨f2, c⟩)) = H (encodeStr H p) →
        encodeStr H (p.set i ⟨f2, c⟩) = encodeStr H p) →
      AgentPersona.compute_hash H (p.set i ⟨f2, c⟩) ≠ AgentPersona.compute_hash H p) := by
  refine ⟨fun files => rfl, ?_, ?_, ?_⟩
  · intro p q h
    unfold AgentPersona.compute_hash encodeStr
    rw [h]
  · intro p f hcoll he
    exact encodeStr_append_ne H p f (hcoll he)
  · intro p i f1 f2 c L hget hne hcf hcf2 hlen hcoll he
    exact encodeStr_set_ne H p i f1 f2 c L hget hne hcf hcf2 hlen (hcoll he)

def C8H : String → String := fun s => "#" ++ s

/-- Witness for C8's amended parts at concrete two-file personas with an
injective concrete digest. -/
theorem C8_persona_hash_witness :
    AgentPersona.compute_hash C8H [⟨"b", "y"⟩, ⟨"a", "x"⟩]
      = specPersonaHashConcat C8H [⟨"b", "y"⟩, ⟨"a", "x"⟩] ∧
    AgentPersona.compute_hash C8H [⟨"b", "y"⟩, ⟨"a", "x"⟩]
      = AgentPersona.compute_hash C8H [⟨"a", "x"⟩, ⟨"b", "y"⟩] ∧
    AgentPersona.compute_hash C8H [⟨"a", "x"⟩, ⟨"b", "y"⟩]
      ≠ AgentPersona.compute_hash C8H [⟨"a", "x"⟩] ∧
    AgentPersona.compute_hash C8H ([⟨"a", "x"⟩, ⟨"b", "y"⟩].set 1 ⟨"c", "y"⟩)
      ≠ AgentPersona.compute_hash C8H [⟨"a", "x"⟩, ⟨"b", "y"⟩] :=
  have h := C8_persona_hash C8H
  ⟨h.1 _, h.2.1 _ _ (by decide),
    h.2.2.1 [⟨"a", "x"⟩] ⟨"b", "y"⟩ (by decide),
    h.2.2.2 [⟨"a", "x"⟩, ⟨"b", "y"⟩] 1 "b" "c" "y" 2 (by decide) (by decide)
      (by decide) (by decide) (by decide) (by decide)⟩

/-- Counterexample to C8 as stated: on a two-file persona the code's hash
input concatenates the parts directly (`a:H(x)b:H(y)`), while the claimed
formula inserts the `"|"` separator (`a:H(x)|b:H(y)`); with an injective
digest the two hashes differ. -/
theorem C8_counterexample :
    AgentPersona.compute_hash C8H [⟨"a", "x"⟩, ⟨"b", "y"⟩]
      ≠ specPersonaHash C8H [⟨"a", "x"⟩, ⟨"b", "y"⟩] ∧
    AgentPersona.compute_hash C8H [⟨"a", "x"⟩, ⟨"b", "y"⟩] = "#a:#xb:#y" ∧
    specPersonaHash C8H [⟨"a", "x"⟩, ⟨"b", "y"⟩] = "#a:#x|b:#y" := by
  refine ⟨by decide, by decide, by decide⟩

end FdaaProxy
